import Mathlib

set_option maxRecDepth 8000
set_option linter.unusedVariables false

/-!
Verification of the orchestration layer of `src/e2fsck/e2fsck.c` (an offline
consistency checker for ext2 filesystem images): the superblock scalar checks
(`check_super_value`), the group-descriptor range checks with relocation
repair (`check_super_block`), the skip heuristic (`check_if_skip`), the
read-write flag derivation of `PRS`, and the `main` restart loop with its
finalization exit classification.

Machine integers of the C source (`blk_t`, `__u32`, `__u16`, ...) are
embedded as `Nat`.  The one signed field that the source compares through a
C cast, `s_max_mnt_count` (a signed 16-bit field cast to `unsigned`), is
embedded as `Int` together with an explicit model of the cast.  Unsigned
wraparound at 2^32 is not modelled in the block arithmetic of the group
loop; for on-disk values (32-bit block numbers below the block count) the
two agree.

External collaborators that are part of e2fsprogs but are not under `src/`
(`fatal_error`, `die`, `ask`, `preenhalt`, `allocate_memory` from
e2fsck/util.c, and the `ext2fs_*` library calls) are modelled from the
spec; each such definition carries a comment saying so.
-/

namespace E2fsck

/-- The superblock state bit EXT2_VALID_FS: filesystem was cleanly unmounted. -/
def EXT2_VALID_FS : Nat := 1

/-- The superblock state bit EXT2_ERROR_FS: errors were detected. -/
def EXT2_ERROR_FS : Nat := 2

/-- Exit code FSCK_OK (0): no errors. -/
def FSCK_OK : Nat := 0

/-- Exit code FSCK_NONDESTRUCT (1): filesystem errors corrected. -/
def FSCK_NONDESTRUCT : Nat := 1

/-- Exit code FSCK_REBOOT (2): filesystem errors corrected, system should be rebooted. -/
def FSCK_REBOOT : Nat := 2

/-- Exit code FSCK_UNCORRECTED (4): filesystem errors left uncorrected. -/
def FSCK_UNCORRECTED : Nat := 4

/-- Flag MIN_CHECK of `check_super_value` (e2fsck.c line 206). -/
def MIN_CHECK : Nat := 1

/-- Flag MAX_CHECK of `check_super_value` (e2fsck.c line 207). -/
def MAX_CHECK : Nat := 2

/-- Scalar fields of the on-disk superblock (`struct ext2_super_block`) that
e2fsck.c reads or writes.  All unsigned fields are `Nat`; `s_max_mnt_count`
is the signed 16-bit field, kept as `Int`. -/
structure Ext2SuperBlock where
  s_inodes_count : Nat
  s_blocks_count : Nat
  s_r_blocks_count : Nat
  s_free_blocks_count : Nat
  s_free_inodes_count : Nat
  s_first_data_block : Nat
  s_log_block_size : Nat
  s_log_frag_size : Nat
  s_blocks_per_group : Nat
  s_frags_per_group : Nat
  s_inodes_per_group : Nat
  s_mnt_count : Nat
  s_max_mnt_count : Int
  s_lastcheck : Nat
  s_checkinterval : Nat
  s_state : Nat
  deriving DecidableEq

/-- The macro EXT2_BLOCK_SIZE: 1024 shifted left by `s_log_block_size`. -/
def EXT2_BLOCK_SIZE (s : Ext2SuperBlock) : Nat :=
  1024 * 2 ^ s.s_log_block_size

/-- One block-group descriptor (`struct ext2_group_desc`): the three block
pointers checked by `check_super_block`. -/
structure GroupDesc where
  bg_block_bitmap : Nat
  bg_inode_bitmap : Nat
  bg_inode_table : Nat
  deriving DecidableEq

/-- The in-memory filesystem handle (`ext2_filsys`) as far as e2fsck.c uses
it here: the superblock, the ordered group descriptors, and the derived
`inode_blocks_per_group`.  The C field `group_desc_count` is
`group_desc.length`. -/
structure Filsys where
  super : Ext2SuperBlock
  group_desc : List GroupDesc
  inode_blocks_per_group : Nat
  deriving DecidableEq

/-- The process-wide mutable state of e2fsck.c that the claims are about:
the three per-group relocation counters (`invalid_block_bitmap`,
`invalid_inode_bitmap`, `invalid_inode_table`, lines 75-77), the aggregate
counter `invalid_bitmaps` (line 62), the `static hint_issued` flag of
`relocate_hint` (line 229) together with a count of how many times the hint
text was actually printed, the number of `ask` prompts that have been
answered (used to index the answer oracle), and the spec's
`RunState.modified` flag raised by the repair-decision policy. -/
structure Globals where
  invalid_block_bitmap : List Nat
  invalid_inode_bitmap : List Nat
  invalid_inode_table : List Nat
  invalid_bitmaps : Nat
  hint_issued : Bool
  hints_emitted : Nat
  ask_count : Nat
  modified : Bool
  deriving DecidableEq

/-- The state of the globals at process start (C initializers, lines 62-78
and 229). -/
def init_globals : Globals :=
  { invalid_block_bitmap := []
    invalid_inode_bitmap := []
    invalid_inode_table := []
    invalid_bitmaps := 0
    hint_issued := false
    hints_emitted := 0
    ask_count := 0
    modified := false }

/-- Modelled from the spec: `allocate_memory` (e2fsck/util.c, not under
`src/`) returns zero-filled memory, so the three per-group RelocationFlags
arrays are allocated all-zero once the group count is known (spec section 3
and section 5).  Models e2fsck.c lines 648-656. -/
def allocate_reloc_arrays (n : Nat) (g : Globals) : Globals :=
  { g with
    invalid_block_bitmap := List.replicate n 0
    invalid_inode_bitmap := List.replicate n 0
    invalid_inode_table := List.replicate n 0 }

/-- Modelled from the spec: the repair-decision policy `ask` (e2fsck/util.c,
not under `src/`).  The answer that the operator or the mode default
produces is supplied by the oracle `ans`, indexed by the number of prompts
so far; per spec section 4.1, every invocation that results in Apply (an
affirmative answer) raises `RunState.modified`. -/
def askApply (ans : Nat → Bool) (g : Globals) : Bool × Globals :=
  let a := ans g.ask_count
  let g1 := { g with ask_count := g.ask_count + 1 }
  (a, if a then { g1 with modified := true } else g1)

/-- The function `relocate_hint` (e2fsck.c lines 227-242): prints a general
relocation hint, guarded by the function-local `static hint_issued` so the
text is printed at most once per process. -/
def relocate_hint (g : Globals) : Globals :=
  if g.hint_issued then g
  else { g with hint_issued := true, hints_emitted := g.hints_emitted + 1 }

/-- Increment of a C array cell: `a[i]++` on a per-group counter array.
Out-of-bounds indices leave the list unchanged (never reached from the
group loop, which indexes by group number below the group count). -/
def bumpAt : List Nat → Nat → List Nat
  | [], _ => []
  | x :: xs, 0 => (x + 1) :: xs
  | x :: xs, n + 1 => x :: bumpAt xs n

/-- The function `check_super_value` (e2fsck.c lines 215-225).  Instead of
printing and terminating, the model returns `some (descr, value)` when the
check fires (the caller turns this into the fatal outcome) and `none` when
the value is legal. -/
def check_super_value (descr : String) (value : Nat) (flags : Nat)
    (min max : Nat) : Option (String × Nat) :=
  if (flags &&& MIN_CHECK ≠ 0 ∧ value < min) ∨
     (flags &&& MAX_CHECK ≠ 0 ∧ max < value) then
    some (descr, value)
  else
    none

/-- The nine sequential `check_super_value` calls of `check_super_block`
(e2fsck.c lines 257-275), returning the first check that fires. -/
def scalar_result (s : Ext2SuperBlock) : Option (String × Nat) :=
  match check_super_value "inodes_count" s.s_inodes_count MIN_CHECK 1 0 with
  | some r => some r
  | none =>
  match check_super_value "blocks_count" s.s_blocks_count MIN_CHECK 1 0 with
  | some r => some r
  | none =>
  match check_super_value "first_data_block" s.s_first_data_block MAX_CHECK 0
      s.s_blocks_count with
  | some r => some r
  | none =>
  match check_super_value "log_frag_size" s.s_log_frag_size MAX_CHECK 0 2 with
  | some r => some r
  | none =>
  match check_super_value "log_block_size" s.s_log_block_size
      (MIN_CHECK + MAX_CHECK) s.s_log_frag_size 2 with
  | some r => some r
  | none =>
  match check_super_value "frags_per_group" s.s_frags_per_group
      (MIN_CHECK + MAX_CHECK) 1 (8 * EXT2_BLOCK_SIZE s) with
  | some r => some r
  | none =>
  match check_super_value "blocks_per_group" s.s_blocks_per_group
      (MIN_CHECK + MAX_CHECK) 1 (8 * EXT2_BLOCK_SIZE s) with
  | some r => some r
  | none =>
  match check_super_value "inodes_per_group" s.s_inodes_per_group MIN_CHECK 1 0 with
  | some r => some r
  | none =>
  check_super_value "r_blocks_count" s.s_r_blocks_count MAX_CHECK 0
      s.s_blocks_count

/-- The ways `check_super_block` terminates the process through
`fatal_error` (modelled from the spec: `fatal_error` in e2fsck/util.c is
not under `src/`; per spec section 7 it prints and terminates the process). -/
inductive Fatal where
  /-- A scalar superblock check fired: `check_super_value` printed the
  field name and value and the backup-superblock hint (`corrupt_msg`). -/
  | scalar (descr : String) (value : Nat)
  /-- The device is physically smaller than the claimed block count and the
  operator answered the "Abort" question affirmatively (lines 284-292). -/
  | deviceTooSmall
  /-- Fragment size differs from block size (lines 294-301). -/
  | fragSizeUnsupported
  /-- Recomputed blocks-per-group mismatch (lines 303-311), printed with
  `corrupt_msg`. -/
  | blocksPerGroupMismatch (stored should_be : Nat)
  /-- Recomputed first-data-block mismatch (lines 313-320), printed with
  `corrupt_msg`. -/
  | firstDataBlockMismatch (stored should_be : Nat)
  /-- The operator declined an offered relocation; `fatal_error` is called
  with a message naming the field (lines 338-339, 352-353, 368-369). -/
  | relocDeclined (msg : String)
  deriving DecidableEq

/-- Whether the fatal path printed `corrupt_msg`, the remediation hint that
names the alternate backup superblock location (e2fsck.c lines 209-213,
222, 309, 318). -/
def printsBackupHint : Fatal → Bool
  | .scalar _ _ => true
  | .blocksPerGroupMismatch _ _ => true
  | .firstDataBlockMismatch _ _ => true
  | _ => false

/-- Result of one group descriptor's three field checks inside the loop of
`check_super_block`: either `fatal_error` fired (carrying the descriptor
and globals as they stood at termination) or the loop body completed. -/
inductive OneResult where
  | fatal (f : Fatal) (gd : GroupDesc) (g : Globals)
  | ok (gd : GroupDesc) (g : Globals)
  deriving DecidableEq

/-- The globals carried by a `OneResult`. -/
def oneG : OneResult → Globals
  | .fatal _ _ g => g
  | .ok _ g => g

/-- The descriptor carried by a `OneResult`. -/
def oneGd : OneResult → GroupDesc
  | .fatal _ gd _ => gd
  | .ok gd _ => gd

/-- The block-bitmap check of the group loop (e2fsck.c lines 331-344): if
`bg_block_bitmap` is outside `[first_block, last_block)`, issue the one-time
hint, ask "Relocate" (default yes); declining is fatal, accepting zeros the
pointer and increments this group's `invalid_block_bitmap` counter and the
aggregate `invalid_bitmaps`. -/
def check_bb (first last i : Nat) (ans : Nat → Bool) (gd : GroupDesc)
    (g : Globals) : OneResult :=
  if gd.bg_block_bitmap < first ∨ last ≤ gd.bg_block_bitmap then
    let g1 := relocate_hint g
    let ag := askApply ans g1
    if ag.1 then
      .ok { gd with bg_block_bitmap := 0 }
        { ag.2 with
          invalid_block_bitmap := bumpAt ag.2.invalid_block_bitmap i
          invalid_bitmaps := ag.2.invalid_bitmaps + 1 }
    else
      .fatal (.relocDeclined "Block bitmap not in group") gd ag.2
  else
    .ok gd g

/-- The inode-bitmap check of the group loop (e2fsck.c lines 345-358),
analogous to `check_bb`. -/
def check_ib (first last i : Nat) (ans : Nat → Bool) (gd : GroupDesc)
    (g : Globals) : OneResult :=
  if gd.bg_inode_bitmap < first ∨ last ≤ gd.bg_inode_bitmap then
    let g1 := relocate_hint g
    let ag := askApply ans g1
    if ag.1 then
      .ok { gd with bg_inode_bitmap := 0 }
        { ag.2 with
          invalid_inode_bitmap := bumpAt ag.2.invalid_inode_bitmap i
          invalid_bitmaps := ag.2.invalid_bitmaps + 1 }
    else
      .fatal (.relocDeclined "Inode bitmap not in group") gd ag.2
  else
    .ok gd g

/-- The inode-table check of the group loop (e2fsck.c lines 359-374): the
whole table extent `[bg_inode_table, bg_inode_table +
inode_blocks_per_group - 1]` must lie inside the group.  (`blk_t` is
unsigned 32-bit; the subtraction is `Nat` truncated subtraction here, which
agrees with the C for every filesystem with at least one inode-table block
per group.) -/
def check_it (ipg first last i : Nat) (ans : Nat → Bool) (gd : GroupDesc)
    (g : Globals) : OneResult :=
  if gd.bg_inode_table < first ∨ last ≤ gd.bg_inode_table + ipg - 1 then
    let g1 := relocate_hint g
    let ag := askApply ans g1
    if ag.1 then
      .ok { gd with bg_inode_table := 0 }
        { ag.2 with
          invalid_inode_table := bumpAt ag.2.invalid_inode_table i
          invalid_bitmaps := ag.2.invalid_bitmaps + 1 }
    else
      .fatal (.relocDeclined "Inode table not in group") gd ag.2
  else
    .ok gd g

/-- One iteration of the group-descriptor loop of `check_super_block`:
the three field checks in source order. -/
def check_one_group (ipg first last i : Nat) (ans : Nat → Bool)
    (gd : GroupDesc) (g : Globals) : OneResult :=
  match check_bb first last i ans gd g with
  | .fatal f gd1 g1 => .fatal f gd1 g1
  | .ok gd1 g1 =>
    match check_ib first last i ans gd1 g1 with
    | .fatal f gd2 g2 => .fatal f gd2 g2
    | .ok gd2 g2 => check_it ipg first last i ans gd2 g2

/-- Result of the whole group-descriptor loop: the (possibly mutated)
descriptor list and globals, under either termination or completion. -/
inductive GroupsResult where
  | fatal (f : Fatal) (gds : List GroupDesc) (g : Globals)
  | ok (gds : List GroupDesc) (g : Globals)
  deriving DecidableEq

/-- The descriptor list carried by a `GroupsResult`. -/
def groupsGds : GroupsResult → List GroupDesc
  | .fatal _ gds _ => gds
  | .ok gds _ => gds

/-- The globals carried by a `GroupsResult`. -/
def groupsG : GroupsResult → Globals
  | .fatal _ _ g => g
  | .ok _ g => g

/-- The group-descriptor loop of `check_super_block` (e2fsck.c lines
325-377).  `first` and `last` are the running `first_block` / `last_block`
accumulators (entered as `s_first_data_block` and `first + blocks_per_group`
and advanced by `blocks_per_group` each iteration); for the final group
(`i = count - 1`) `last_block` is overridden with the superblock's total
block count (lines 329-330). -/
def check_groups (ipg bpg nblocks count : Nat) (ans : Nat → Bool) :
    List GroupDesc → Nat → Nat → Nat → Globals → GroupsResult
  | [], _first, _last, _i, g => .ok [] g
  | gd :: rest, first, last, i, g =>
    let lastAdj := if i = count - 1 then nblocks else last
    match check_one_group ipg first lastAdj i ans gd g with
    | .fatal f gd1 g1 => .fatal f (gd1 :: rest) g1
    | .ok gd1 g1 =>
      match check_groups ipg bpg nblocks count ans rest (first + bpg)
          (lastAdj + bpg) (i + 1) g1 with
      | .fatal f rest1 g2 => .fatal f (gd1 :: rest1) g2
      | .ok rest1 g2 => .ok (gd1 :: rest1) g2

/-- Outcome of `check_super_block`: either `fatal_error` terminated the
process (carrying the in-memory filesystem and globals as they stood), or
the routine returned, with the possibly-repaired descriptors. -/
inductive CSBResult where
  | fatal (f : Fatal) (fs : Filsys) (g : Globals)
  | ok (fs : Filsys) (g : Globals)
  deriving DecidableEq

/-- The filesystem state carried by a `CSBResult`. -/
def csbFs : CSBResult → Filsys
  | .fatal _ fs _ => fs
  | .ok fs _ => fs

/-- The globals carried by a `CSBResult`. -/
def csbG : CSBResult → Globals
  | .fatal _ _ g => g
  | .ok _ g => g

/-- The group-loop stage of `check_super_block` (lines 322-378). -/
def check_super_block_groups (ans : Nat → Bool) (fs : Filsys) (g : Globals) :
    CSBResult :=
  let s := fs.super
  match check_groups fs.inode_blocks_per_group s.s_blocks_per_group
      s.s_blocks_count fs.group_desc.length ans fs.group_desc
      s.s_first_data_block (s.s_first_data_block + s.s_blocks_per_group) 0 g with
  | .fatal f gds g1 => .fatal f { fs with group_desc := gds } g1
  | .ok gds g1 => .ok { fs with group_desc := gds } g1

/-- The re-derived-field stage of `check_super_block` (lines 294-320):
fragment size must equal block size; `blocks_per_group` and
`first_data_block` are recomputed and any mismatch is fatal root
corruption. -/
def check_super_block_derived (ans : Nat → Bool) (fs : Filsys) (g : Globals) :
    CSBResult :=
  let s := fs.super
  if s.s_log_block_size ≠ s.s_log_frag_size then
    .fatal .fragSizeUnsupported fs g
  else
    let should_be := s.s_frags_per_group /
      (s.s_log_block_size - s.s_log_frag_size + 1)
    if s.s_blocks_per_group ≠ should_be then
      .fatal (.blocksPerGroupMismatch s.s_blocks_per_group should_be) fs g
    else
      let should_be2 := if s.s_log_block_size = 0 then 1 else 0
      if s.s_first_data_block ≠ should_be2 then
        .fatal (.firstDataBlockMismatch s.s_first_data_block should_be2) fs g
      else
        check_super_block_groups ans fs g

/-- The function `check_super_block` (e2fsck.c lines 245-379).
`device_size` is the result of `ext2fs_get_device_size` (external library
call, modelled as succeeding with the given size).  Stage order follows the
source: the nine scalar checks, the physical-device-size check (whose
"Abort" question defaults to yes; `preenhalt` is modelled from the spec,
section 6, as a banner-only notifier), the two re-derived fields, then the
group loop. -/
def check_super_block (device_size : Nat) (ans : Nat → Bool) (fs : Filsys)
    (g : Globals) : CSBResult :=
  match scalar_result fs.super with
  | some dv => .fatal (.scalar dv.1 dv.2) fs g
  | none =>
    if device_size < fs.super.s_blocks_count then
      let ag := askApply ans g
      if ag.1 then .fatal .deviceTooSmall fs ag.2
      else check_super_block_derived ans fs ag.2
    else
      check_super_block_derived ans fs g

/-- The C cast `(unsigned) fs->super->s_max_mnt_count` (e2fsck.c line 396):
the signed 16-bit field is sign-extended and reinterpreted as unsigned
32-bit. -/
def castU32 (x : Int) : Nat := (x % (4294967296 : Int)).toNat

/-- Outcome of `check_if_skip` (e2fsck.c lines 386-414). -/
inductive SkipOutcome where
  /-- A forced check was requested on the command line (`force`,
  bad-blocks file, or `-c`); return silently. -/
  | forcedFlag
  /-- An on-disk condition forces the check; the reason is printed and the
  routine returns. -/
  | forcedReason (reason : String)
  /-- The filesystem state is marked valid: print the one-line
  used-inodes/total, used-blocks/total summary and `exit(FSCK_OK)`. -/
  | cleanExit (code iu it bu bt : Nat)
  /-- The state is not marked valid: fall through and check. -/
  | notValid
  deriving DecidableEq

/-- The function `check_if_skip` (e2fsck.c lines 386-414). -/
def check_if_skip (force bbf cflag : Bool) (now : Nat) (s : Ext2SuperBlock) :
    SkipOutcome :=
  if force || bbf || cflag then
    .forcedFlag
  else if s.s_state &&& EXT2_ERROR_FS ≠ 0 then
    .forcedReason "contains a file system with errors"
  else if castU32 s.s_max_mnt_count ≤ s.s_mnt_count then
    .forcedReason "has reached maximal mount count"
  else if s.s_checkinterval ≠ 0 ∧ s.s_lastcheck + s.s_checkinterval ≤ now then
    .forcedReason "has gone too long without being checked"
  else if s.s_state &&& EXT2_VALID_FS ≠ 0 then
    .cleanExit FSCK_OK (s.s_inodes_count - s.s_free_inodes_count)
      s.s_inodes_count (s.s_blocks_count - s.s_free_blocks_count)
      s.s_blocks_count
  else
    .notValid

/-- The read-write flag computation of `PRS` (e2fsck.c lines 54 and
525-526): `rwflag` starts at 1 and is cleared only when `-n` was given
without a bad-blocks file and without `-c`. -/
def prs_rwflag (nflag bbf cflag : Bool) : Bool :=
  !(nflag && !bbf && !cflag)

/-- The static global `root_filesystem` (e2fsck.c line 72).  It is
initialized to 0 and no code in the file ever sets it. -/
def root_filesystem : Bool := false

/-- The static global `read_only_root` (e2fsck.c line 73).  It is
initialized to 0 and no code in the file ever sets it. -/
def read_only_root : Bool := false

/-- The exit classification at the end of `main` (e2fsck.c lines 688-699):
start from FSCK_OK; if the filesystem was changed, FSCK_NONDESTRUCT, or
FSCK_REBOOT when it is the root filesystem not mounted read-only; finally
FSCK_UNCORRECTED overrides whenever the filesystem is not marked valid. -/
def exit_classification (changed valid root_fs ro_root : Bool) : Nat :=
  let e1 :=
    if changed then
      if root_fs && !ro_root then FSCK_REBOOT else FSCK_NONDESTRUCT
    else FSCK_OK
  if !valid then FSCK_UNCORRECTED else e1

/-- The superblock write-back of `main` (e2fsck.c lines 700-708), executed
when `rwflag` is set: the state word is assigned EXT2_VALID_FS when the
filesystem tested valid and has its EXT2_VALID_FS bit (bit 0) cleared
otherwise, the mount count is reset to 0, and the last-check timestamp is
set to the current time. -/
def finalize_super (valid : Bool) (now : Nat) (s : Ext2SuperBlock) :
    Ext2SuperBlock :=
  let s1 :=
    if valid then { s with s_state := EXT2_VALID_FS }
    else { s with s_state := 2 * (s.s_state / 2) }
  { s1 with s_mnt_count := 0, s_lastcheck := now }

/-- Observable steps of `main` recorded as a trace: handle open,
allocation of the relocation arrays, the validator, the skip heuristic,
the bad-blocks / surface-scan externals, `ext2fs_mark_valid`, the five
passes (external), the restart close-and-reopen, and finalization. -/
inductive Ev where
  | evOpen
  | evAlloc
  | evValidate
  | evSkipCheck
  | evBadBlocks
  | evTestDisk
  | evMarkValid
  | evPass1
  | evReopenRestart
  | evPass2
  | evPass3
  | evPass4
  | evPass5
  | evFinalize
  deriving DecidableEq

/-- A reading of the relocation counters, taken right after the three
per-group arrays are allocated in an iteration of the restart loop
(immediately after the handle is opened, before the validator runs). -/
structure Snapshot where
  invalid_block_bitmap : List Nat
  invalid_inode_bitmap : List Nat
  invalid_inode_table : List Nat
  invalid_bitmaps : Nat
  deriving DecidableEq

/-- How a modelled run of `main` ends. -/
inductive MainOutcome where
  /-- The `die` call of line 581 (interactive mode without a terminal). -/
  | die (msg : String)
  /-- `fatal_error` terminated the process during validation. -/
  | fatalExit (f : Fatal)
  /-- `check_if_skip` printed the clean one-line summary and exited. -/
  | skipExit (code iu it bu bt : Nat)
  /-- `main` returned `exit_value`. -/
  | exited (code : Nat)
  /-- The fuel bound of the model was exhausted inside the restart loop
  (the C `goto restart` loop has no bound of its own). -/
  | outOfFuel
  deriving DecidableEq

/-- Result of a modelled run of `main`: the event trace, the counter
snapshots (one per iteration of the restart loop, taken right after the
arrays are allocated), the outcome, the superblock content written back at
finalization (`none` when the write-back did not execute), and the final
process globals. -/
structure RunResult where
  events : List Ev
  snapshots : List Snapshot
  outcome : MainOutcome
  finalSuper : Option Ext2SuperBlock
  finalGlobals : Globals
  deriving DecidableEq

/-- Inputs of a modelled run of `main`: the command-line mode flags, the
terminal state of stdin/stdout, the current time, the physical device size,
the `ask` answer oracle, the on-disk filesystem as seen by the k-th open
(`disk k`; the externals may have written between iterations), and the
external behavior of the passes: whether pass 1 requests a restart on
iteration k (`restart_e2fsck`), whether pass 1 and passes 2-5 mark the
filesystem changed or clear its valid flag, and whether the bad-blocks /
surface-scan externals mark it changed. -/
structure MainInput where
  force : Bool
  bbf : Bool
  cflag : Bool
  preen : Bool
  nflag : Bool
  yflag : Bool
  tty0 : Bool
  tty1 : Bool
  now : Nat
  device_size : Nat
  ans : Nat → Bool
  disk : Nat → Filsys
  p1restart : Nat → Bool
  p1chg : Nat → Bool
  p1val : Nat → Bool
  bbchg : Bool
  p25chg : Bool
  p25val : Bool

/-- The restart loop of `main` (e2fsck.c lines 583-718), one recursive call
per `goto restart`.  Each iteration: open a fresh handle from the disk
(line 585-627; the handle's changed flag starts clear), allocate the
zero-filled relocation arrays (lines 648-656) and record the snapshot, run
`check_super_block` (line 658, fatal terminates), run `check_if_skip`
(line 659, a clean filesystem exits the process), run the bad-blocks or
surface-scan external (lines 660-663), `ext2fs_mark_valid` (line 668), and
pass 1 (line 670).  The arrays are then freed (lines 671-673).  If pass 1
set `restart_e2fsck`, the handle is closed, the flag is cleared, and the
loop restarts (lines 674-679); note that the aggregate `invalid_bitmaps`
counter and the hint flag are carried, unreset, into the next iteration.
Otherwise passes 2-5 run (lines 680-683), the exit value is classified
(lines 688-699) and, when `rwflag` is set, the superblock state, mount
count and timestamp are written back (lines 700-708). -/
def main_loop (inp : MainInput) (rw : Bool) : Nat → Nat → Globals → RunResult
  | 0, _k, g =>
    { events := []
      snapshots := []
      outcome := .outOfFuel
      finalSuper := none
      finalGlobals := g }
  | fuel + 1, k, g =>
    let fs0 := inp.disk k
    let g1 := allocate_reloc_arrays fs0.group_desc.length g
    let snap : Snapshot :=
      { invalid_block_bitmap := g1.invalid_block_bitmap
        invalid_inode_bitmap := g1.invalid_inode_bitmap
        invalid_inode_table := g1.invalid_inode_table
        invalid_bitmaps := g1.invalid_bitmaps }
    match check_super_block inp.device_size inp.ans fs0 g1 with
    | .fatal f _fs1 g2 =>
      { events := [.evOpen, .evAlloc, .evValidate]
        snapshots := [snap]
        outcome := .fatalExit f
        finalSuper := none
        finalGlobals := g2 }
    | .ok fs1 g2 =>
      match check_if_skip inp.force inp.bbf inp.cflag inp.now fs1.super with
      | .cleanExit code iu it bu bt =>
        { events := [.evOpen, .evAlloc, .evValidate, .evSkipCheck]
          snapshots := [snap]
          outcome := .skipExit code iu it bu bt
          finalSuper := none
          finalGlobals := g2 }
      | _ =>
        let midEvents :=
          (if inp.bbf then [Ev.evBadBlocks]
           else if inp.cflag then [Ev.evTestDisk]
           else []) ++ [Ev.evMarkValid, Ev.evPass1]
        let changed0 := if inp.bbf || inp.cflag then inp.bbchg else false
        let changed1 := changed0 || inp.p1chg k
        let valid1 := inp.p1val k
        let g3 :=
          { g2 with
            invalid_block_bitmap := []
            invalid_inode_bitmap := []
            invalid_inode_table := [] }
        if inp.p1restart k then
          let r := main_loop inp rw fuel (k + 1) g3
          { events := .evOpen :: .evAlloc :: .evValidate :: .evSkipCheck ::
              (midEvents ++ Ev.evReopenRestart :: r.events)
            snapshots := snap :: r.snapshots
            outcome := r.outcome
            finalSuper := r.finalSuper
            finalGlobals := r.finalGlobals }
        else
          let changed2 := changed1 || inp.p25chg
          let valid2 := valid1 && inp.p25val
          let code := exit_classification changed2 valid2 root_filesystem
            read_only_root
          { events := .evOpen :: .evAlloc :: .evValidate :: .evSkipCheck ::
              (midEvents ++
                [Ev.evPass2, Ev.evPass3, Ev.evPass4, Ev.evPass5, Ev.evFinalize])
            snapshots := [snap]
            outcome := .exited code
            finalSuper :=
              if rw then some (finalize_super valid2 inp.now fs1.super)
              else none
            finalGlobals := g3 }

/-- The modelled `main` (e2fsck.c lines 551-719), for a volume that is not
mounted (`check_mount` returns without exiting): compute `rwflag` as `PRS`
does, apply the interactive-terminal guard of lines 579-582 (interactive
mode without a terminal on stdin and stdout dies), then enter the restart
loop. -/
def e2fsck_main (inp : MainInput) (fuel : Nat) : RunResult :=
  if !inp.preen && !inp.nflag && !inp.yflag && (!inp.tty0 || !inp.tty1) then
    { events := []
      snapshots := []
      outcome := .die "need terminal for interactive repairs"
      finalSuper := none
      finalGlobals := init_globals }
  else
    main_loop inp (prs_rwflag inp.nflag inp.bbf inp.cflag) fuel 0 init_globals

/-- The scalar superblock invariant set of spec section 3 as listed in the
claims: inode count and block count at least 1, first data block at most
the block count, fragment-size exponent at most 2, block-size exponent
between the fragment-size exponent and 2, blocks per group and fragments
per group between 1 and eight times the block size, and reserved blocks at
most the block count. -/
def spec_scalar_ok (s : Ext2SuperBlock) : Prop :=
  1 ≤ s.s_inodes_count ∧
  1 ≤ s.s_blocks_count ∧
  s.s_first_data_block ≤ s.s_blocks_count ∧
  s.s_log_frag_size ≤ 2 ∧
  (s.s_log_frag_size ≤ s.s_log_block_size ∧ s.s_log_block_size ≤ 2) ∧
  (1 ≤ s.s_blocks_per_group ∧ s.s_blocks_per_group ≤ 8 * EXT2_BLOCK_SIZE s) ∧
  (1 ≤ s.s_frags_per_group ∧ s.s_frags_per_group ≤ 8 * EXT2_BLOCK_SIZE s) ∧
  s.s_r_blocks_count ≤ s.s_blocks_count

instance (s : Ext2SuperBlock) : Decidable (spec_scalar_ok s) := by
  unfold spec_scalar_ok
  exact inferInstance

/-- The statement that the fired scalar check `(descr, value)` names a field
of `s` whose value actually violates the corresponding range of the nine
`check_super_value` calls (e2fsck.c lines 257-275). -/
def scalar_violated (s : Ext2SuperBlock) (d : String) (v : Nat) : Prop :=
  (d = "inodes_count" ∧ v = s.s_inodes_count ∧ v < 1) ∨
  (d = "blocks_count" ∧ v = s.s_blocks_count ∧ v < 1) ∨
  (d = "first_data_block" ∧ v = s.s_first_data_block ∧ s.s_blocks_count < v) ∨
  (d = "log_frag_size" ∧ v = s.s_log_frag_size ∧ 2 < v) ∨
  (d = "log_block_size" ∧ v = s.s_log_block_size ∧
    (v < s.s_log_frag_size ∨ 2 < v)) ∨
  (d = "frags_per_group" ∧ v = s.s_frags_per_group ∧
    (v < 1 ∨ 8 * EXT2_BLOCK_SIZE s < v)) ∨
  (d = "blocks_per_group" ∧ v = s.s_blocks_per_group ∧
    (v < 1 ∨ 8 * EXT2_BLOCK_SIZE s < v)) ∨
  (d = "inodes_per_group" ∧ v = s.s_inodes_per_group ∧ v < 1) ∨
  (d = "r_blocks_count" ∧ v = s.s_r_blocks_count ∧ s.s_blocks_count < v)

/-- The lower bound of group i's block range as the loop of
`check_super_block` computes it: `s_first_data_block` advanced by
`s_blocks_per_group` per group. -/
def group_range_first (fs : Filsys) (i : Nat) : Nat :=
  fs.super.s_first_data_block + i * fs.super.s_blocks_per_group

/-- The (exclusive) upper bound of group i's block range as the loop of
`check_super_block` computes it: one nominal span above the lower bound,
except that the final group's bound is the superblock's total block count
(e2fsck.c lines 329-330). -/
def group_range_last (fs : Filsys) (i : Nat) : Nat :=
  if i = fs.group_desc.length - 1 then fs.super.s_blocks_count
  else group_range_first fs i + fs.super.s_blocks_per_group

/-- The statement that a descriptor's three pointers lie inside the block
range `[first, last)`, with the inode table judged by its whole extent of
`ipg` blocks, matching the loop's comparisons. -/
def gd_in_range (ipg first last : Nat) (gd : GroupDesc) : Prop :=
  (first ≤ gd.bg_block_bitmap ∧ gd.bg_block_bitmap < last) ∧
  (first ≤ gd.bg_inode_bitmap ∧ gd.bg_inode_bitmap < last) ∧
  (first ≤ gd.bg_inode_table ∧ gd.bg_inode_table + ipg - 1 < last)

/-- The statement that group i's descriptor pointers lie inside group i's
true block range. -/
def group_in_range (fs : Filsys) (i : Nat) (gd : GroupDesc) : Prop :=
  gd_in_range fs.inode_blocks_per_group (group_range_first fs i)
    (group_range_last fs i) gd

/-- The statement that a block-bitmap pointer is outside `[first, last)`,
written exactly as the loop's test (e2fsck.c line 331). -/
def bb_out (first last : Nat) (gd : GroupDesc) : Prop :=
  gd.bg_block_bitmap < first ∨ last ≤ gd.bg_block_bitmap

/-- The statement that an inode-bitmap pointer is outside `[first, last)`
(e2fsck.c line 345). -/
def ib_out (first last : Nat) (gd : GroupDesc) : Prop :=
  gd.bg_inode_bitmap < first ∨ last ≤ gd.bg_inode_bitmap

/-- The statement that an inode-table extent is not contained in
`[first, last)` (e2fsck.c lines 359-361). -/
def it_out (ipg first last : Nat) (gd : GroupDesc) : Prop :=
  gd.bg_inode_table < first ∨ last ≤ gd.bg_inode_table + ipg - 1

/-- The invariant that makes the one-time hint guard work: the hint was
printed at most once, and not at all while the `static` flag is still
clear. -/
def hint_inv (g : Globals) : Prop :=
  g.hints_emitted ≤ 1 ∧ (g.hint_issued = false → g.hints_emitted = 0)

instance (first last : Nat) (gd : GroupDesc) : Decidable (bb_out first last gd) := by
  unfold bb_out
  exact inferInstance

instance (first last : Nat) (gd : GroupDesc) : Decidable (ib_out first last gd) := by
  unfold ib_out
  exact inferInstance

instance (ipg first last : Nat) (gd : GroupDesc) : Decidable (it_out ipg first last gd) := by
  unfold it_out
  exact inferInstance

instance (ipg first last : Nat) (gd : GroupDesc) : Decidable (gd_in_range ipg first last gd) := by
  unfold gd_in_range
  exact inferInstance

instance (fs : Filsys) (i : Nat) (gd : GroupDesc) : Decidable (group_in_range fs i gd) := by
  unfold group_in_range
  exact inferInstance

/-- An answer oracle that accepts every offered question. -/
def ansTrue : Nat → Bool := fun _ => true

/-- The clean example filesystem of spec section 8: 1000 inodes (500 free),
4096 blocks (2048 free), state marked valid, mount count 1 of 20.  One
block group covering blocks [1, 4096) with in-range bitmap and table
pointers; all scalar invariants hold. -/
def sbClean : Ext2SuperBlock :=
  { s_inodes_count := 1000
    s_blocks_count := 4096
    s_r_blocks_count := 0
    s_free_blocks_count := 2048
    s_free_inodes_count := 500
    s_first_data_block := 1
    s_log_block_size := 0
    s_log_frag_size := 0
    s_blocks_per_group := 4096
    s_frags_per_group := 4096
    s_inodes_per_group := 1000
    s_mnt_count := 1
    s_max_mnt_count := 20
    s_lastcheck := 0
    s_checkinterval := 0
    s_state := 1 }

/-- The handle for `sbClean`. -/
def fsClean : Filsys :=
  { super := sbClean
    group_desc := [{ bg_block_bitmap := 2, bg_inode_bitmap := 3, bg_inode_table := 4 }]
    inode_blocks_per_group := 1 }

/-- A run input for the clean filesystem: no forcing flags, preen off but a
terminal present, passes well behaved. -/
def inpClean : MainInput :=
  { force := false
    bbf := false
    cflag := false
    preen := false
    nflag := false
    yflag := false
    tty0 := true
    tty1 := true
    now := 0
    device_size := 4096
    ans := ansTrue
    disk := fun _ => fsClean
    p1restart := fun _ => false
    p1chg := fun _ => false
    p1val := fun _ => true
    bbchg := false
    p25chg := false
    p25val := true }

/-- A filesystem whose group 0 block bitmap pointer (block 20) lies outside
group 0's range [1, 9): all scalar invariants hold, two groups of 8 blocks
starting at block 1 with 17 blocks total, in-range pointers everywhere
else.  The state word is 0 (not marked valid), so `check_if_skip` falls
through and the passes run. -/
def sbReloc : Ext2SuperBlock :=
  { s_inodes_count := 1
    s_blocks_count := 17
    s_r_blocks_count := 0
    s_free_blocks_count := 0
    s_free_inodes_count := 0
    s_first_data_block := 1
    s_log_block_size := 0
    s_log_frag_size := 0
    s_blocks_per_group := 8
    s_frags_per_group := 8
    s_inodes_per_group := 1
    s_mnt_count := 0
    s_max_mnt_count := 20
    s_lastcheck := 0
    s_checkinterval := 0
    s_state := 0 }

/-- The handle for `sbReloc`: group 0's block bitmap is out of range. -/
def fsReloc : Filsys :=
  { super := sbReloc
    group_desc :=
      [{ bg_block_bitmap := 20, bg_inode_bitmap := 2, bg_inode_table := 3 },
       { bg_block_bitmap := 9, bg_inode_bitmap := 10, bg_inode_table := 11 }]
    inode_blocks_per_group := 1 }

/-- A run input on `fsReloc` in which pass 1 requests one restart (on the
first iteration only), as it does when relocations occurred. -/
def inpReloc : MainInput :=
  { force := false
    bbf := false
    cflag := false
    preen := false
    nflag := false
    yflag := false
    tty0 := true
    tty1 := true
    now := 0
    device_size := 17
    ans := ansTrue
    disk := fun _ => fsReloc
    p1restart := fun k => k == 0
    p1chg := fun _ => false
    p1val := fun _ => true
    bbchg := false
    p25chg := false
    p25val := true }

/-- A run input in interactive mode (no -p, -n or -y) with no terminal on
standard input. -/
def inpNoTty : MainInput :=
  { inpClean with tty0 := false }

/-- A run input combining the read-only flag -n with a surface-scan
request -c on the clean filesystem. -/
def inpReadOnlyScan : MainInput :=
  { inpClean with nflag := true, cflag := true }

/-- A superblock violating one scalar invariant: its block count is 0. -/
def sbBad : Ext2SuperBlock :=
  { sbClean with s_blocks_count := 0 }

/-- A handle for `sbBad`. -/
def fsBad : Filsys :=
  { super := sbBad, group_desc := [], inode_blocks_per_group := 1 }

/-- A filesystem with two groups whose final group is narrower than
`blocks_per_group`: nominal span 8 from block 1, but only 13 blocks in
total, so group 1 covers [9, 13).  Every pointer (and the two-block
inode-table extents) is inside its group's true range. -/
def fsNarrow : Filsys :=
  { super :=
      { s_inodes_count := 100
        s_blocks_count := 13
        s_r_blocks_count := 0
        s_free_blocks_count := 5
        s_free_inodes_count := 50
        s_first_data_block := 1
        s_log_block_size := 0
        s_log_frag_size := 0
        s_blocks_per_group := 8
        s_frags_per_group := 8
        s_inodes_per_group := 50
        s_mnt_count := 0
        s_max_mnt_count := 20
        s_lastcheck := 0
        s_checkinterval := 0
        s_state := 0 }
    group_desc :=
      [{ bg_block_bitmap := 2, bg_inode_bitmap := 3, bg_inode_table := 4 },
       { bg_block_bitmap := 9, bg_inode_bitmap := 10, bg_inode_table := 11 }]
    inode_blocks_per_group := 2 }

/-- Globals with two freshly allocated per-group counters. -/
def gTwo : Globals := allocate_reloc_arrays 2 init_globals

/-! Helper lemmas. -/

theorem bumpAt_getD_self (l : List Nat) (i : Nat) (h : i < l.length) :
    (bumpAt l i).getD i 0 = l.getD i 0 + 1 := by
  induction l generalizing i with
  | nil => simp at h
  | cons x xs ih =>
    cases i with
    | zero => simp [bumpAt]
    | succ n =>
      simp only [bumpAt, List.getD_cons_succ]
      exact ih n (by simpa using h)

theorem bumpAt_getD_ne (l : List Nat) (i j : Nat) (h : j ≠ i) :
    (bumpAt l i).getD j 0 = l.getD j 0 := by
  induction l generalizing i j with
  | nil => simp [bumpAt]
  | cons x xs ih =>
    cases i with
    | zero =>
      cases j with
      | zero => exact absurd rfl h
      | succ m => simp [bumpAt]
    | succ n =>
      cases j with
      | zero => simp [bumpAt]
      | succ m =>
        simp only [bumpAt, List.getD_cons_succ]
        exact ih n m (by omega)

theorem getD_replicate_zero (n j : Nat) :
    (List.replicate n (0 : Nat)).getD j 0 = 0 := by
  induction n generalizing j with
  | zero => simp
  | succ m ih =>
    cases j with
    | zero => simp [List.replicate]
    | succ jj => simp [List.replicate, List.getD_cons_succ, ih]

theorem ite_some_eq_none {α : Type} {c : Prop} [Decidable c] {x : α}
    (h : (if c then some x else none) = none) : ¬c := by
  intro hc
  rw [if_pos hc] at h
  exact Option.noConfusion h

theorem ite_some_eq_some {α : Type} {c : Prop} [Decidable c] {x y : α}
    (h : (if c then some x else none) = some y) : c ∧ y = x := by
  by_cases hc : c
  · rw [if_pos hc] at h
    exact ⟨hc, (Option.some.inj h).symm⟩
  · rw [if_neg hc] at h
    exact Option.noConfusion h

theorem csv_min_eq (d : String) (v mn mx : Nat) :
    check_super_value d v MIN_CHECK mn mx =
      if v < mn then some (d, v) else none := by
  unfold check_super_value
  by_cases h : v < mn
  · have hc : (MIN_CHECK &&& MIN_CHECK ≠ 0 ∧ v < mn) ∨
        (MIN_CHECK &&& MAX_CHECK ≠ 0 ∧ mx < v) := Or.inl ⟨by decide, h⟩
    rw [if_pos hc, if_pos h]
  · have hc : ¬((MIN_CHECK &&& MIN_CHECK ≠ 0 ∧ v < mn) ∨
        (MIN_CHECK &&& MAX_CHECK ≠ 0 ∧ mx < v)) := by
      rintro (⟨-, hlt⟩ | ⟨hflag, -⟩)
      · exact h hlt
      · exact hflag (by decide)
    rw [if_neg hc, if_neg h]

theorem csv_max_eq (d : String) (v mn mx : Nat) :
    check_super_value d v MAX_CHECK mn mx =
      if mx < v then some (d, v) else none := by
  unfold check_super_value
  by_cases h : mx < v
  · have hc : (MAX_CHECK &&& MIN_CHECK ≠ 0 ∧ v < mn) ∨
        (MAX_CHECK &&& MAX_CHECK ≠ 0 ∧ mx < v) := Or.inr ⟨by decide, h⟩
    rw [if_pos hc, if_pos h]
  · have hc : ¬((MAX_CHECK &&& MIN_CHECK ≠ 0 ∧ v < mn) ∨
        (MAX_CHECK &&& MAX_CHECK ≠ 0 ∧ mx < v)) := by
      rintro (⟨hflag, -⟩ | ⟨-, hlt⟩)
      · exact hflag (by decide)
      · exact h hlt
    rw [if_neg hc, if_neg h]

theorem csv_minmax_eq (d : String) (v mn mx : Nat) :
    check_super_value d v (MIN_CHECK + MAX_CHECK) mn mx =
      if v < mn ∨ mx < v then some (d, v) else none := by
  unfold check_super_value
  by_cases h : v < mn ∨ mx < v
  · have hc : ((MIN_CHECK + MAX_CHECK) &&& MIN_CHECK ≠ 0 ∧ v < mn) ∨
        ((MIN_CHECK + MAX_CHECK) &&& MAX_CHECK ≠ 0 ∧ mx < v) := by
      rcases h with h | h
      · exact Or.inl ⟨by decide, h⟩
      · exact Or.inr ⟨by decide, h⟩
    rw [if_pos hc, if_pos h]
  · have hc : ¬(((MIN_CHECK + MAX_CHECK) &&& MIN_CHECK ≠ 0 ∧ v < mn) ∨
        ((MIN_CHECK + MAX_CHECK) &&& MAX_CHECK ≠ 0 ∧ mx < v)) := by
      rintro (⟨-, hlt⟩ | ⟨-, hlt⟩)
      · exact h (Or.inl hlt)
      · exact h (Or.inr hlt)
    rw [if_neg hc, if_neg h]

theorem scalar_result_none (s : Ext2SuperBlock) (h : scalar_result s = none) :
    spec_scalar_ok s := by
  unfold scalar_result at h
  rw [csv_min_eq, csv_min_eq, csv_max_eq, csv_max_eq, csv_minmax_eq,
      csv_minmax_eq, csv_minmax_eq, csv_min_eq, csv_max_eq] at h
  unfold spec_scalar_ok
  split at h
  · exact absurd h (by simp)
  rename_i h1
  have h1 := ite_some_eq_none h1
  split at h
  · exact absurd h (by simp)
  rename_i h2
  have h2 := ite_some_eq_none h2
  split at h
  · exact absurd h (by simp)
  rename_i h3
  have h3 := ite_some_eq_none h3
  split at h
  · exact absurd h (by simp)
  rename_i h4
  have h4 := ite_some_eq_none h4
  split at h
  · exact absurd h (by simp)
  rename_i h5
  have h5 := ite_some_eq_none h5
  split at h
  · exact absurd h (by simp)
  rename_i h6
  have h6 := ite_some_eq_none h6
  split at h
  · exact absurd h (by simp)
  rename_i h7
  have h7 := ite_some_eq_none h7
  split at h
  · exact absurd h (by simp)
  rename_i h8
  have h8 := ite_some_eq_none h8
  have h9 := ite_some_eq_none h
  refine ⟨by omega, by omega, by omega, by omega, ⟨by omega, by omega⟩,
    ⟨?_, ?_⟩, ⟨?_, ?_⟩, by omega⟩ <;> omega

theorem scalar_result_some (s : Ext2SuperBlock) (d : String) (v : Nat)
    (h : scalar_result s = some (d, v)) : scalar_violated s d v := by
  unfold scalar_result at h
  rw [csv_min_eq, csv_min_eq, csv_max_eq, csv_max_eq, csv_minmax_eq,
      csv_minmax_eq, csv_minmax_eq, csv_min_eq, csv_max_eq] at h
  unfold scalar_violated
  split at h
  · rename_i r h1
    obtain ⟨hc, hr⟩ := ite_some_eq_some h1
    obtain ⟨hd, hv⟩ := Prod.mk.injEq .. ▸ (hr ▸ Option.some.inj h)
    exact Or.inl ⟨hd.symm, hv.symm, by omega⟩
  rename_i h1
  split at h
  · rename_i r h2
    obtain ⟨hc, hr⟩ := ite_some_eq_some h2
    obtain ⟨hd, hv⟩ := Prod.mk.injEq .. ▸ (hr ▸ Option.some.inj h)
    exact Or.inr (Or.inl ⟨hd.symm, hv.symm, by omega⟩)
  rename_i h2
  split at h
  · rename_i r h3
    obtain ⟨hc, hr⟩ := ite_some_eq_some h3
    obtain ⟨hd, hv⟩ := Prod.mk.injEq .. ▸ (hr ▸ Option.some.inj h)
    exact Or.inr (Or.inr (Or.inl ⟨hd.symm, hv.symm, by omega⟩))
  rename_i h3
  split at h
  · rename_i r h4
    obtain ⟨hc, hr⟩ := ite_some_eq_some h4
    obtain ⟨hd, hv⟩ := Prod.mk.injEq .. ▸ (hr ▸ Option.some.inj h)
    exact Or.inr (Or.inr (Or.inr (Or.inl ⟨hd.symm, hv.symm, by omega⟩)))
  rename_i h4
  split at h
  · rename_i r h5
    obtain ⟨hc, hr⟩ := ite_some_eq_some h5
    obtain ⟨hd, hv⟩ := Prod.mk.injEq .. ▸ (hr ▸ Option.some.inj h)
    refine Or.inr (Or.inr (Or.inr (Or.inr (Or.inl ⟨hd.symm, hv.symm, ?_⟩))))
    subst hv
    exact hc
  rename_i h5
  split at h
  · rename_i r h6
    obtain ⟨hc, hr⟩ := ite_some_eq_some h6
    obtain ⟨hd, hv⟩ := Prod.mk.injEq .. ▸ (hr ▸ Option.some.inj h)
    refine Or.inr (Or.inr (Or.inr (Or.inr (Or.inr (Or.inl ⟨hd.symm, hv.symm, ?_⟩)))))
    subst hv
    exact hc
  rename_i h6
  split at h
  · rename_i r h7
    obtain ⟨hc, hr⟩ := ite_some_eq_some h7
    obtain ⟨hd, hv⟩ := Prod.mk.injEq .. ▸ (hr ▸ Option.some.inj h)
    refine Or.inr (Or.inr (Or.inr (Or.inr (Or.inr (Or.inr (Or.inl ⟨hd.symm, hv.symm, ?_⟩))))))
    subst hv
    exact hc
  rename_i h7
  split at h
  · rename_i r h8
    obtain ⟨hc, hr⟩ := ite_some_eq_some h8
    obtain ⟨hd, hv⟩ := Prod.mk.injEq .. ▸ (hr ▸ Option.some.inj h)
    exact Or.inr (Or.inr (Or.inr (Or.inr (Or.inr (Or.inr (Or.inr (Or.inl
      ⟨hd.symm, hv.symm, by omega⟩)))))))
  rename_i h8
  obtain ⟨hc, hr⟩ := ite_some_eq_some h
  obtain ⟨hd, hv⟩ := Prod.mk.injEq .. ▸ hr.symm
  exact Or.inr (Or.inr (Or.inr (Or.inr (Or.inr (Or.inr (Or.inr (Or.inr
    ⟨hd.symm, hv.symm, by omega⟩)))))))

/-! Claim C2. -/

/-- C2: at finalization the exit classification is 0 when modified=false and
valid=true; 1 when modified=true, valid=true and the volume is not the
read-write-mounted root; 2 when modified=true, valid=true and the volume is
the root mounted read-write (`root_filesystem` set, `read_only_root`
clear); and 4 whenever valid=false, regardless of modified. -/
theorem C2_exit_code_matrix (changed valid root_fs ro_root : Bool) :
    (changed = false → valid = true →
      exit_classification changed valid root_fs ro_root = 0) ∧
    (changed = true → valid = true → ¬(root_fs = true ∧ ro_root = false) →
      exit_classification changed valid root_fs ro_root = 1) ∧
    (changed = true → valid = true → root_fs = true → ro_root = false →
      exit_classification changed valid root_fs ro_root = 2) ∧
    (valid = false →
      exit_classification changed valid root_fs ro_root = 4) := by
  revert changed valid root_fs ro_root
  decide

/-- Witness for C2: the matrix applied at one concrete point per row. -/
theorem C2_exit_code_matrix_witness :
    exit_classification false true false false = 0 ∧
    exit_classification true true false false = 1 ∧
    exit_classification true true true false = 2 ∧
    exit_classification true false true false = 4 :=
  ⟨(C2_exit_code_matrix false true false false).1 rfl rfl,
   (C2_exit_code_matrix true true false false).2.1 rfl rfl (by simp),
   (C2_exit_code_matrix true true true false).2.2.1 rfl rfl rfl rfl,
   (C2_exit_code_matrix true false true false).2.2.2 rfl⟩

/-! Claim C4. -/

/-- C4: for every superblock violating any single scalar invariant of the
spec section 3 set, validation terminates fatally -- with the filesystem
and the relocation state exactly as they were (no repair is attempted, the
group-descriptor checks are never reached) -- printing a violated field's
name and value together with the backup-superblock remediation hint. -/
theorem C4_scalar_violation_fatal (device_size : Nat) (ans : Nat → Bool)
    (fs : Filsys) (g : Globals) (h : ¬ spec_scalar_ok fs.super) :
    ∃ d v, check_super_block device_size ans fs g = .fatal (.scalar d v) fs g ∧
      scalar_violated fs.super d v ∧ printsBackupHint (.scalar d v) = true := by
  cases hs : scalar_result fs.super with
  | none => exact absurd (scalar_result_none _ hs) h
  | some dv =>
    obtain ⟨d, v⟩ := dv
    refine ⟨d, v, ?_, scalar_result_some _ _ _ hs, rfl⟩
    unfold check_super_block
    rw [hs]

/-- Witness for C4: a superblock whose block count is 0 is rejected
fatally before any group-descriptor work. -/
theorem C4_scalar_violation_fatal_witness :
    ¬ spec_scalar_ok sbBad ∧
    ∃ d v, check_super_block 4096 ansTrue fsBad init_globals =
        .fatal (.scalar d v) fsBad init_globals ∧
      scalar_violated sbBad d v ∧ printsBackupHint (.scalar d v) = true :=
  ⟨by decide, C4_scalar_violation_fatal 4096 ansTrue fsBad init_globals (by decide)⟩

/-! Lemmas about the three per-field checks of the group loop. -/

theorem relocate_hint_fields (g : Globals) :
    (relocate_hint g).invalid_block_bitmap = g.invalid_block_bitmap ∧
    (relocate_hint g).invalid_inode_bitmap = g.invalid_inode_bitmap ∧
    (relocate_hint g).invalid_inode_table = g.invalid_inode_table ∧
    (relocate_hint g).invalid_bitmaps = g.invalid_bitmaps ∧
    (relocate_hint g).ask_count = g.ask_count ∧
    (relocate_hint g).modified = g.modified := by
  unfold relocate_hint
  split <;> exact ⟨rfl, rfl, rfl, rfl, rfl, rfl⟩

theorem check_bb_in (first last i : Nat) (ans : Nat → Bool) (gd : GroupDesc)
    (g : Globals) (h : ¬ bb_out first last gd) :
    check_bb first last i ans gd g = .ok gd g := by
  unfold check_bb
  rw [if_neg (show ¬(gd.bg_block_bitmap < first ∨ last ≤ gd.bg_block_bitmap) from h)]

theorem check_ib_in (first last i : Nat) (ans : Nat → Bool) (gd : GroupDesc)
    (g : Globals) (h : ¬ ib_out first last gd) :
    check_ib first last i ans gd g = .ok gd g := by
  unfold check_ib
  rw [if_neg (show ¬(gd.bg_inode_bitmap < first ∨ last ≤ gd.bg_inode_bitmap) from h)]

theorem check_it_in (ipg first last i : Nat) (ans : Nat → Bool) (gd : GroupDesc)
    (g : Globals) (h : ¬ it_out ipg first last gd) :
    check_it ipg first last i ans gd g = .ok gd g := by
  unfold check_it
  rw [if_neg (show ¬(gd.bg_inode_table < first ∨ last ≤ gd.bg_inode_table + ipg - 1) from h)]

theorem check_bb_out_yes (first last i : Nat) (ans : Nat → Bool)
    (gd : GroupDesc) (g : Globals) (hbb : bb_out first last gd)
    (hans : ans g.ask_count = true) (hl : i < g.invalid_block_bitmap.length) :
    ∃ g1, check_bb first last i ans gd g =
        .ok { gd with bg_block_bitmap := 0 } g1 ∧
      g1.invalid_block_bitmap.getD i 0 = g.invalid_block_bitmap.getD i 0 + 1 ∧
      (∀ j, j ≠ i →
        g1.invalid_block_bitmap.getD j 0 = g.invalid_block_bitmap.getD j 0) ∧
      g1.invalid_inode_bitmap = g.invalid_inode_bitmap ∧
      g1.invalid_inode_table = g.invalid_inode_table ∧
      g1.modified = true ∧
      g1.invalid_bitmaps = g.invalid_bitmaps + 1 := by
  unfold check_bb
  rw [if_pos (show gd.bg_block_bitmap < first ∨ last ≤ gd.bg_block_bitmap from hbb)]
  by_cases hh : g.hint_issued <;>
    simp only [relocate_hint, hh, if_true, if_false, Bool.false_eq_true,
      askApply, hans, reduceIte] <;>
    exact ⟨_, rfl, bumpAt_getD_self _ _ (by simpa using hl),
      fun j hj => bumpAt_getD_ne _ _ _ hj, rfl, rfl, rfl, rfl⟩

theorem check_bb_out_no (first last i : Nat) (ans : Nat → Bool)
    (gd : GroupDesc) (g : Globals) (hbb : bb_out first last gd)
    (hans : ans g.ask_count = false) :
    ∃ g1, check_bb first last i ans gd g =
        .fatal (.relocDeclined "Block bitmap not in group") gd g1 ∧
      g1.invalid_block_bitmap = g.invalid_block_bitmap ∧
      g1.invalid_inode_bitmap = g.invalid_inode_bitmap ∧
      g1.invalid_inode_table = g.invalid_inode_table ∧
      g1.modified = g.modified ∧
      g1.invalid_bitmaps = g.invalid_bitmaps := by
  unfold check_bb
  rw [if_pos (show gd.bg_block_bitmap < first ∨ last ≤ gd.bg_block_bitmap from hbb)]
  by_cases hh : g.hint_issued <;>
    simp only [relocate_hint, hh, if_true, if_false, Bool.false_eq_true,
      askApply, hans, reduceIte] <;>
    exact ⟨_, rfl, rfl, rfl, rfl, rfl, rfl⟩

theorem check_ib_out_yes (first last i : Nat) (ans : Nat → Bool)
    (gd : GroupDesc) (g : Globals) (hib : ib_out first last gd)
    (hans : ans g.ask_count = true) (hl : i < g.invalid_inode_bitmap.length) :
    ∃ g1, check_ib first last i ans gd g =
        .ok { gd with bg_inode_bitmap := 0 } g1 ∧
      g1.invalid_inode_bitmap.getD i 0 = g.invalid_inode_bitmap.getD i 0 + 1 ∧
      (∀ j, j ≠ i →
        g1.invalid_inode_bitmap.getD j 0 = g.invalid_inode_bitmap.getD j 0) ∧
      g1.invalid_block_bitmap = g.invalid_block_bitmap ∧
      g1.invalid_inode_table = g.invalid_inode_table ∧
      g1.modified = true ∧
      g1.invalid_bitmaps = g.invalid_bitmaps + 1 := by
  unfold check_ib
  rw [if_pos (show gd.bg_inode_bitmap < first ∨ last ≤ gd.bg_inode_bitmap from hib)]
  by_cases hh : g.hint_issued <;>
    simp only [relocate_hint, hh, if_true, if_false, Bool.false_eq_true,
      askApply, hans, reduceIte] <;>
    exact ⟨_, rfl, bumpAt_getD_self _ _ (by simpa using hl),
      fun j hj => bumpAt_getD_ne _ _ _ hj, rfl, rfl, rfl, rfl⟩

theorem check_ib_out_no (first last i : Nat) (ans : Nat → Bool)
    (gd : GroupDesc) (g : Globals) (hib : ib_out first last gd)
    (hans : ans g.ask_count = false) :
    ∃ g1, check_ib first last i ans gd g =
        .fatal (.relocDeclined "Inode bitmap not in group") gd g1 ∧
      g1.invalid_block_bitmap = g.invalid_block_bitmap ∧
      g1.invalid_inode_bitmap = g.invalid_inode_bitmap ∧
      g1.invalid_inode_table = g.invalid_inode_table ∧
      g1.modified = g.modified ∧
      g1.invalid_bitmaps = g.invalid_bitmaps := by
  unfold check_ib
  rw [if_pos (show gd.bg_inode_bitmap < first ∨ last ≤ gd.bg_inode_bitmap from hib)]
  by_cases hh : g.hint_issued <;>
    simp only [relocate_hint, hh, if_true, if_false, Bool.false_eq_true,
      askApply, hans, reduceIte] <;>
    exact ⟨_, rfl, rfl, rfl, rfl, rfl, rfl⟩

theorem check_it_out_yes (ipg first last i : Nat) (ans : Nat → Bool)
    (gd : GroupDesc) (g : Globals) (hit : it_out ipg first last gd)
    (hans : ans g.ask_count = true) (hl : i < g.invalid_inode_table.length) :
    ∃ g1, check_it ipg first last i ans gd g =
        .ok { gd with bg_inode_table := 0 } g1 ∧
      g1.invalid_inode_table.getD i 0 = g.invalid_inode_table.getD i 0 + 1 ∧
      (∀ j, j ≠ i →
        g1.invalid_inode_table.getD j 0 = g.invalid_inode_table.getD j 0) ∧
      g1.invalid_block_bitmap = g.invalid_block_bitmap ∧
      g1.invalid_inode_bitmap = g.invalid_inode_bitmap ∧
      g1.modified = true ∧
      g1.invalid_bitmaps = g.invalid_bitmaps + 1 := by
  unfold check_it
  rw [if_pos (show gd.bg_inode_table < first ∨ last ≤ gd.bg_inode_table + ipg - 1 from hit)]
  by_cases hh : g.hint_issued <;>
    simp only [relocate_hint, hh, if_true, if_false, Bool.false_eq_true,
      askApply, hans, reduceIte] <;>
    exact ⟨_, rfl, bumpAt_getD_self _ _ (by simpa using hl),
      fun j hj => bumpAt_getD_ne _ _ _ hj, rfl, rfl, rfl, rfl⟩

theorem check_it_out_no (ipg first last i : Nat) (ans : Nat → Bool)
    (gd : GroupDesc) (g : Globals) (hit : it_out ipg first last gd)
    (hans : ans g.ask_count = false) :
    ∃ g1, check_it ipg first last i ans gd g =
        .fatal (.relocDeclined "Inode table not in group") gd g1 ∧
      g1.invalid_block_bitmap = g.invalid_block_bitmap ∧
      g1.invalid_inode_bitmap = g.invalid_inode_bitmap ∧
      g1.invalid_inode_table = g.invalid_inode_table ∧
      g1.modified = g.modified ∧
      g1.invalid_bitmaps = g.invalid_bitmaps := by
  unfold check_it
  rw [if_pos (show gd.bg_inode_table < first ∨ last ≤ gd.bg_inode_table + ipg - 1 from hit)]
  by_cases hh : g.hint_issued <;>
    simp only [relocate_hint, hh, if_true, if_false, Bool.false_eq_true,
      askApply, hans, reduceIte] <;>
    exact ⟨_, rfl, rfl, rfl, rfl, rfl, rfl⟩

theorem check_one_group_bb_fatal (ipg first last i : Nat) (ans : Nat → Bool)
    (gd gd1 : GroupDesc) (g g1 : Globals) (f : Fatal)
    (hb : check_bb first last i ans gd g = .fatal f gd1 g1) :
    check_one_group ipg first last i ans gd g = .fatal f gd1 g1 := by
  unfold check_one_group
  rw [hb]

theorem check_one_group_ib_fatal (ipg first last i : Nat) (ans : Nat → Bool)
    (gd gd1 gd2 : GroupDesc) (g g1 g2 : Globals) (f : Fatal)
    (hb : check_bb first last i ans gd g = .ok gd1 g1)
    (hi : check_ib first last i ans gd1 g1 = .fatal f gd2 g2) :
    check_one_group ipg first last i ans gd g = .fatal f gd2 g2 := by
  unfold check_one_group
  simp only [hb, hi]

theorem check_one_group_full (ipg first last i : Nat) (ans : Nat → Bool)
    (gd gd1 gd2 : GroupDesc) (g g1 g2 : Globals)
    (hb : check_bb first last i ans gd g = .ok gd1 g1)
    (hi : check_ib first last i ans gd1 g1 = .ok gd2 g2) :
    check_one_group ipg first last i ans gd g =
      check_it ipg first last i ans gd2 g2 := by
  unfold check_one_group
  simp only [hb, hi]

theorem check_one_group_in_range (ipg first last i : Nat) (ans : Nat → Bool)
    (gd : GroupDesc) (g : Globals) (hb : ¬ bb_out first last gd)
    (hi : ¬ ib_out first last gd) (ht : ¬ it_out ipg first last gd) :
    check_one_group ipg first last i ans gd g = .ok gd g := by
  rw [check_one_group_full ipg first last i ans gd gd gd g g g
      (check_bb_in first last i ans gd g hb) (check_ib_in first last i ans gd g hi),
    check_it_in ipg first last i ans gd g ht]

/-! Claim C3. -/

/-- C3: for every group descriptor with a pointer outside its group's block
range, accepting the offered relocation zeros the stored pointer,
increments exactly that group's corresponding per-field RelocationFlags
counter (and the aggregate), and sets RunState.modified; declining the
relocation terminates the run fatally naming the field and leaves the
pointer and the counters unchanged.  Stated for each of the three fields,
each time with the other two fields in range so that the clause isolates
that field's check. -/
theorem C3_out_of_range_relocation (ipg first last i : Nat) (ans : Nat → Bool)
    (gd : GroupDesc) (g : Globals)
    (hl1 : i < g.invalid_block_bitmap.length)
    (hl2 : i < g.invalid_inode_bitmap.length)
    (hl3 : i < g.invalid_inode_table.length) :
    (bb_out first last gd → ¬ ib_out first last gd → ¬ it_out ipg first last gd →
      (ans g.ask_count = true →
        ∃ g1, check_one_group ipg first last i ans gd g =
            .ok { gd with bg_block_bitmap := 0 } g1 ∧
          g1.invalid_block_bitmap.getD i 0 = g.invalid_block_bitmap.getD i 0 + 1 ∧
          (∀ j, j ≠ i →
            g1.invalid_block_bitmap.getD j 0 = g.invalid_block_bitmap.getD j 0) ∧
          g1.invalid_inode_bitmap = g.invalid_inode_bitmap ∧
          g1.invalid_inode_table = g.invalid_inode_table ∧
          g1.modified = true ∧
          g1.invalid_bitmaps = g.invalid_bitmaps + 1) ∧
      (ans g.ask_count = false →
        ∃ g1, check_one_group ipg first last i ans gd g =
            .fatal (.relocDeclined "Block bitmap not in group") gd g1 ∧
          g1.invalid_block_bitmap = g.invalid_block_bitmap ∧
          g1.invalid_inode_bitmap = g.invalid_inode_bitmap ∧
          g1.invalid_inode_table = g.invalid_inode_table ∧
          g1.modified = g.modified ∧
          g1.invalid_bitmaps = g.invalid_bitmaps)) ∧
    (¬ bb_out first last gd → ib_out first last gd → ¬ it_out ipg first last gd →
      (ans g.ask_count = true →
        ∃ g1, check_one_group ipg first last i ans gd g =
            .ok { gd with bg_inode_bitmap := 0 } g1 ∧
          g1.invalid_inode_bitmap.getD i 0 = g.invalid_inode_bitmap.getD i 0 + 1 ∧
          (∀ j, j ≠ i →
            g1.invalid_inode_bitmap.getD j 0 = g.invalid_inode_bitmap.getD j 0) ∧
          g1.invalid_block_bitmap = g.invalid_block_bitmap ∧
          g1.invalid_inode_table = g.invalid_inode_table ∧
          g1.modified = true ∧
          g1.invalid_bitmaps = g.invalid_bitmaps + 1) ∧
      (ans g.ask_count = false →
        ∃ g1, check_one_group ipg first last i ans gd g =
            .fatal (.relocDeclined "Inode bitmap not in group") gd g1 ∧
          g1.invalid_block_bitmap = g.invalid_block_bitmap ∧
          g1.invalid_inode_bitmap = g.invalid_inode_bitmap ∧
          g1.invalid_inode_table = g.invalid_inode_table ∧
          g1.modified = g.modified ∧
          g1.invalid_bitmaps = g.invalid_bitmaps)) ∧
    (¬ bb_out first last gd → ¬ ib_out first last gd → it_out ipg first last gd →
      (ans g.ask_count = true →
        ∃ g1, check_one_group ipg first last i ans gd g =
            .ok { gd with bg_inode_table := 0 } g1 ∧
          g1.invalid_inode_table.getD i 0 = g.invalid_inode_table.getD i 0 + 1 ∧
          (∀ j, j ≠ i →
            g1.invalid_inode_table.getD j 0 = g.invalid_inode_table.getD j 0) ∧
          g1.invalid_block_bitmap = g.invalid_block_bitmap ∧
          g1.invalid_inode_bitmap = g.invalid_inode_bitmap ∧
          g1.modified = true ∧
          g1.invalid_bitmaps = g.invalid_bitmaps + 1) ∧
      (ans g.ask_count = false →
        ∃ g1, check_one_group ipg first last i ans gd g =
            .fatal (.relocDeclined "Inode table not in group") gd g1 ∧
          g1.invalid_block_bitmap = g.invalid_block_bitmap ∧
          g1.invalid_inode_bitmap = g.invalid_inode_bitmap ∧
          g1.invalid_inode_table = g.invalid_inode_table ∧
          g1.modified = g.modified ∧
          g1.invalid_bitmaps = g.invalid_bitmaps)) := by
  refine ⟨?_, ?_, ?_⟩
  · intro hbb hib hit
    constructor
    · intro hans
      obtain ⟨g1, hbeq, hp1, hp2, hp3, hp4, hp5, hp6⟩ :=
        check_bb_out_yes first last i ans gd g hbb hans hl1
      have hib1 : ¬ ib_out first last { gd with bg_block_bitmap := 0 } := by
        simpa [ib_out] using hib
      have hit1 : ¬ it_out ipg first last { gd with bg_block_bitmap := 0 } := by
        simpa [it_out] using hit
      refine ⟨g1, ?_, hp1, hp2, hp3, hp4, hp5, hp6⟩
      rw [check_one_group_full ipg first last i ans gd _ _ g g1 g1 hbeq
          (check_ib_in first last i ans _ g1 hib1),
        check_it_in ipg first last i ans _ g1 hit1]
    · intro hans
      obtain ⟨g1, hbeq, hp1, hp2, hp3, hp4, hp5⟩ :=
        check_bb_out_no first last i ans gd g hbb hans
      exact ⟨g1, check_one_group_bb_fatal ipg first last i ans gd gd g g1 _ hbeq,
        hp1, hp2, hp3, hp4, hp5⟩
  · intro hbb hib hit
    have hb := check_bb_in first last i ans gd g hbb
    constructor
    · intro hans
      obtain ⟨g1, hieq, hp1, hp2, hp3, hp4, hp5, hp6⟩ :=
        check_ib_out_yes first last i ans gd g hib hans hl2
      have hit1 : ¬ it_out ipg first last { gd with bg_inode_bitmap := 0 } := by
        simpa [it_out] using hit
      refine ⟨g1, ?_, hp1, hp2, hp3, hp4, hp5, hp6⟩
      rw [check_one_group_full ipg first last i ans gd gd _ g g g1 hb hieq,
        check_it_in ipg first last i ans _ g1 hit1]
    · intro hans
      obtain ⟨g1, hieq, hp1, hp2, hp3, hp4, hp5⟩ :=
        check_ib_out_no first last i ans gd g hib hans
      exact ⟨g1, check_one_group_ib_fatal ipg first last i ans gd gd gd g g g1 _ hb hieq,
        hp1, hp2, hp3, hp4, hp5⟩
  · intro hbb hib hit
    have hb := check_bb_in first last i ans gd g hbb
    have hi := check_ib_in first last i ans gd g hib
    have hfull := check_one_group_full ipg first last i ans gd gd gd g g g hb hi
    constructor
    · intro hans
      obtain ⟨g1, hteq, hp1, hp2, hp3, hp4, hp5, hp6⟩ :=
        check_it_out_yes ipg first last i ans gd g hit hans hl3
      exact ⟨g1, by rw [hfull, hteq], hp1, hp2, hp3, hp4, hp5, hp6⟩
    · intro hans
      obtain ⟨g1, hteq, hp1, hp2, hp3, hp4, hp5⟩ :=
        check_it_out_no ipg first last i ans gd g hit hans
      exact ⟨g1, by rw [hfull, hteq], hp1, hp2, hp3, hp4, hp5⟩

theorem askApply_fields (ans : Nat → Bool) (g : Globals) :
    (askApply ans g).2.invalid_block_bitmap = g.invalid_block_bitmap ∧
    (askApply ans g).2.invalid_inode_bitmap = g.invalid_inode_bitmap ∧
    (askApply ans g).2.invalid_inode_table = g.invalid_inode_table ∧
    (askApply ans g).2.invalid_bitmaps = g.invalid_bitmaps ∧
    (askApply ans g).2.hint_issued = g.hint_issued ∧
    (askApply ans g).2.hints_emitted = g.hints_emitted := by
  unfold askApply
  dsimp only
  split <;> exact ⟨rfl, rfl, rfl, rfl, rfl, rfl⟩

theorem hint_inv_of_eq (g g' : Globals) (h1 : g'.hint_issued = g.hint_issued)
    (h2 : g'.hints_emitted = g.hints_emitted) (h : hint_inv g) : hint_inv g' := by
  unfold hint_inv at h ⊢
  rw [h1, h2]
  exact h

theorem hint_inv_relocate (g : Globals) (h : hint_inv g) :
    hint_inv (relocate_hint g) := by
  unfold relocate_hint
  split
  · exact h
  · rename_i hiss
    have hz := h.2 (by simpa using hiss)
    constructor
    · simpa using Nat.le_of_eq (by omega : g.hints_emitted + 1 = 1)
    · intro hfalse
      simp at hfalse

theorem check_bb_arrays_ne (first last i : Nat) (ans : Nat → Bool)
    (gd : GroupDesc) (g : Globals) (j : Nat) (hj : j ≠ i) :
    (oneG (check_bb first last i ans gd g)).invalid_block_bitmap.getD j 0 =
      g.invalid_block_bitmap.getD j 0 ∧
    (oneG (check_bb first last i ans gd g)).invalid_inode_bitmap.getD j 0 =
      g.invalid_inode_bitmap.getD j 0 ∧
    (oneG (check_bb first last i ans gd g)).invalid_inode_table.getD j 0 =
      g.invalid_inode_table.getD j 0 := by
  obtain ⟨a1, a2, a3, a4, a5, a6⟩ := relocate_hint_fields g
  obtain ⟨b1, b2, b3, b4, b5, b6⟩ := askApply_fields ans (relocate_hint g)
  unfold check_bb
  split
  · dsimp only
    split
    · simp only [oneG]
      refine ⟨?_, ?_, ?_⟩
      · rw [bumpAt_getD_ne _ _ _ hj, b1, a1]
      · rw [b2, a2]
      · rw [b3, a3]
    · simp only [oneG]
      exact ⟨by rw [b1, a1], by rw [b2, a2], by rw [b3, a3]⟩
  · exact ⟨rfl, rfl, rfl⟩

theorem check_ib_arrays_ne (first last i : Nat) (ans : Nat → Bool)
    (gd : GroupDesc) (g : Globals) (j : Nat) (hj : j ≠ i) :
    (oneG (check_ib first last i ans gd g)).invalid_block_bitmap.getD j 0 =
      g.invalid_block_bitmap.getD j 0 ∧
    (oneG (check_ib first last i ans gd g)).invalid_inode_bitmap.getD j 0 =
      g.invalid_inode_bitmap.getD j 0 ∧
    (oneG (check_ib first last i ans gd g)).invalid_inode_table.getD j 0 =
      g.invalid_inode_table.getD j 0 := by
  obtain ⟨a1, a2, a3, a4, a5, a6⟩ := relocate_hint_fields g
  obtain ⟨b1, b2, b3, b4, b5, b6⟩ := askApply_fields ans (relocate_hint g)
  unfold check_ib
  split
  · dsimp only
    split
    · simp only [oneG]
      refine ⟨?_, ?_, ?_⟩
      · rw [b1, a1]
      · rw [bumpAt_getD_ne _ _ _ hj, b2, a2]
      · rw [b3, a3]
    · simp only [oneG]
      exact ⟨by rw [b1, a1], by rw [b2, a2], by rw [b3, a3]⟩
  · exact ⟨rfl, rfl, rfl⟩

theorem check_it_arrays_ne (ipg first last i : Nat) (ans : Nat → Bool)
    (gd : GroupDesc) (g : Globals) (j : Nat) (hj : j ≠ i) :
    (oneG (check_it ipg first last i ans gd g)).invalid_block_bitmap.getD j 0 =
      g.invalid_block_bitmap.getD j 0 ∧
    (oneG (check_it ipg first last i ans gd g)).invalid_inode_bitmap.getD j 0 =
      g.invalid_inode_bitmap.getD j 0 ∧
    (oneG (check_it ipg first last i ans gd g)).invalid_inode_table.getD j 0 =
      g.invalid_inode_table.getD j 0 := by
  obtain ⟨a1, a2, a3, a4, a5, a6⟩ := relocate_hint_fields g
  obtain ⟨b1, b2, b3, b4, b5, b6⟩ := askApply_fields ans (relocate_hint g)
  unfold check_it
  split
  · dsimp only
    split
    · simp only [oneG]
      refine ⟨?_, ?_, ?_⟩
      · rw [b1, a1]
      · rw [b2, a2]
      · rw [bumpAt_getD_ne _ _ _ hj, b3, a3]
    · simp only [oneG]
      exact ⟨by rw [b1, a1], by rw [b2, a2], by rw [b3, a3]⟩
  · exact ⟨rfl, rfl, rfl⟩

theorem hint_inv_check_bb (first last i : Nat) (ans : Nat → Bool)
    (gd : GroupDesc) (g : Globals) (h : hint_inv g) :
    hint_inv (oneG (check_bb first last i ans gd g)) := by
  obtain ⟨a1, a2, a3, a4, a5, a6⟩ := relocate_hint_fields g
  obtain ⟨b1, b2, b3, b4, b5, b6⟩ := askApply_fields ans (relocate_hint g)
  have hrel := hint_inv_relocate g h
  unfold check_bb
  split
  · dsimp only
    split
    · simp only [oneG]
      exact hint_inv_of_eq _ _ b5 b6 hrel
    · simp only [oneG]
      exact hint_inv_of_eq _ _ b5 b6 hrel
  · exact h

theorem hint_inv_check_ib (first last i : Nat) (ans : Nat → Bool)
    (gd : GroupDesc) (g : Globals) (h : hint_inv g) :
    hint_inv (oneG (check_ib first last i ans gd g)) := by
  obtain ⟨a1, a2, a3, a4, a5, a6⟩ := relocate_hint_fields g
  obtain ⟨b1, b2, b3, b4, b5, b6⟩ := askApply_fields ans (relocate_hint g)
  have hrel := hint_inv_relocate g h
  unfold check_ib
  split
  · dsimp only
    split
    · simp only [oneG]
      exact hint_inv_of_eq _ _ b5 b6 hrel
    · simp only [oneG]
      exact hint_inv_of_eq _ _ b5 b6 hrel
  · exact h

theorem hint_inv_check_it (ipg first last i : Nat) (ans : Nat → Bool)
    (gd : GroupDesc) (g : Globals) (h : hint_inv g) :
    hint_inv (oneG (check_it ipg first last i ans gd g)) := by
  obtain ⟨a1, a2, a3, a4, a5, a6⟩ := relocate_hint_fields g
  obtain ⟨b1, b2, b3, b4, b5, b6⟩ := askApply_fields ans (relocate_hint g)
  have hrel := hint_inv_relocate g h
  unfold check_it
  split
  · dsimp only
    split
    · simp only [oneG]
      exact hint_inv_of_eq _ _ b5 b6 hrel
    · simp only [oneG]
      exact hint_inv_of_eq _ _ b5 b6 hrel
  · exact h

theorem check_one_group_arrays_ne (ipg first last i : Nat) (ans : Nat → Bool)
    (gd : GroupDesc) (g : Globals) (j : Nat) (hj : j ≠ i) :
    (oneG (check_one_group ipg first last i ans gd g)).invalid_block_bitmap.getD j 0 =
      g.invalid_block_bitmap.getD j 0 ∧
    (oneG (check_one_group ipg first last i ans gd g)).invalid_inode_bitmap.getD j 0 =
      g.invalid_inode_bitmap.getD j 0 ∧
    (oneG (check_one_group ipg first last i ans gd g)).invalid_inode_table.getD j 0 =
      g.invalid_inode_table.getD j 0 := by
  cases hb : check_bb first last i ans gd g with
  | fatal f gd1 g1 =>
    have hb' := check_bb_arrays_ne first last i ans gd g j hj
    rw [hb] at hb'
    simp only [oneG] at hb'
    rw [check_one_group_bb_fatal ipg first last i ans gd gd1 g g1 f hb]
    simpa only [oneG] using hb'
  | ok gd1 g1 =>
    have hb' := check_bb_arrays_ne first last i ans gd g j hj
    rw [hb] at hb'
    simp only [oneG] at hb'
    cases hi : check_ib first last i ans gd1 g1 with
    | fatal f gd2 g2 =>
      have hi' := check_ib_arrays_ne first last i ans gd1 g1 j hj
      rw [hi] at hi'
      simp only [oneG] at hi'
      rw [check_one_group_ib_fatal ipg first last i ans gd gd1 gd2 g g1 g2 f hb hi]
      simp only [oneG]
      exact ⟨by rw [hi'.1, hb'.1], by rw [hi'.2.1, hb'.2.1], by rw [hi'.2.2, hb'.2.2]⟩
    | ok gd2 g2 =>
      have hi' := check_ib_arrays_ne first last i ans gd1 g1 j hj
      rw [hi] at hi'
      simp only [oneG] at hi'
      have ht' := check_it_arrays_ne ipg first last i ans gd2 g2 j hj
      rw [check_one_group_full ipg first last i ans gd gd1 gd2 g g1 g2 hb hi]
      exact ⟨by rw [ht'.1, hi'.1, hb'.1], by rw [ht'.2.1, hi'.2.1, hb'.2.1],
        by rw [ht'.2.2, hi'.2.2, hb'.2.2]⟩

theorem hint_inv_check_one_group (ipg first last i : Nat) (ans : Nat → Bool)
    (gd : GroupDesc) (g : Globals) (h : hint_inv g) :
    hint_inv (oneG (check_one_group ipg first last i ans gd g)) := by
  cases hb : check_bb first last i ans gd g with
  | fatal f gd1 g1 =>
    have hb' := hint_inv_check_bb first last i ans gd g h
    rw [hb] at hb'
    simp only [oneG] at hb'
    rw [check_one_group_bb_fatal ipg first last i ans gd gd1 g g1 f hb]
    simpa only [oneG] using hb'
  | ok gd1 g1 =>
    have hb' := hint_inv_check_bb first last i ans gd g h
    rw [hb] at hb'
    simp only [oneG] at hb'
    cases hi : check_ib first last i ans gd1 g1 with
    | fatal f gd2 g2 =>
      have hi' := hint_inv_check_ib first last i ans gd1 g1 hb'
      rw [hi] at hi'
      simp only [oneG] at hi'
      rw [check_one_group_ib_fatal ipg first last i ans gd gd1 gd2 g g1 g2 f hb hi]
      simpa only [oneG] using hi'
    | ok gd2 g2 =>
      have hi' := hint_inv_check_ib first last i ans gd1 g1 hb'
      rw [hi] at hi'
      simp only [oneG] at hi'
      rw [check_one_group_full ipg first last i ans gd gd1 gd2 g g1 g2 hb hi]
      exact hint_inv_check_it ipg first last i ans gd2 g2 hi'

theorem check_groups_nil (ipg bpg nblocks count : Nat) (ans : Nat → Bool)
    (first last i : Nat) (g : Globals) :
    check_groups ipg bpg nblocks count ans [] first last i g = .ok [] g := rfl

theorem check_groups_cons_fatal (ipg bpg nblocks count : Nat) (ans : Nat → Bool)
    (gd gd1 : GroupDesc) (rest : List GroupDesc) (first last i : Nat)
    (g g1 : Globals) (f : Fatal)
    (h : check_one_group ipg first (if i = count - 1 then nblocks else last) i
        ans gd g = .fatal f gd1 g1) :
    check_groups ipg bpg nblocks count ans (gd :: rest) first last i g =
      .fatal f (gd1 :: rest) g1 := by
  unfold check_groups
  dsimp only
  rw [h]

theorem check_groups_cons_ok (ipg bpg nblocks count : Nat) (ans : Nat → Bool)
    (gd gd1 : GroupDesc) (rest : List GroupDesc) (first last i : Nat)
    (g g1 : Globals)
    (h : check_one_group ipg first (if i = count - 1 then nblocks else last) i
        ans gd g = .ok gd1 g1) :
    check_groups ipg bpg nblocks count ans (gd :: rest) first last i g =
      (match check_groups ipg bpg nblocks count ans rest (first + bpg)
          ((if i = count - 1 then nblocks else last) + bpg) (i + 1) g1 with
       | .fatal f rest1 g2 => .fatal f (gd1 :: rest1) g2
       | .ok rest1 g2 => .ok (gd1 :: rest1) g2) := by
  conv_lhs => unfold check_groups
  dsimp only
  rw [h]

theorem check_groups_arrays_lt (ipg bpg nblocks count : Nat) (ans : Nat → Bool) :
    ∀ (gds : List GroupDesc) (first last i : Nat) (g : Globals) (j : Nat),
      j < i →
      (groupsG (check_groups ipg bpg nblocks count ans gds first last i g)).invalid_block_bitmap.getD j 0 =
        g.invalid_block_bitmap.getD j 0 ∧
      (groupsG (check_groups ipg bpg nblocks count ans gds first last i g)).invalid_inode_bitmap.getD j 0 =
        g.invalid_inode_bitmap.getD j 0 ∧
      (groupsG (check_groups ipg bpg nblocks count ans gds first last i g)).invalid_inode_table.getD j 0 =
        g.invalid_inode_table.getD j 0 := by
  intro gds
  induction gds with
  | nil =>
    intro first last i g j hj
    rw [check_groups_nil]
    exact ⟨rfl, rfl, rfl⟩
  | cons gd rest ih =>
    intro first last i g j hj
    cases ho : check_one_group ipg first (if i = count - 1 then nblocks else last)
        i ans gd g with
    | fatal f gd1 g1 =>
      have ho' := check_one_group_arrays_ne ipg first
        (if i = count - 1 then nblocks else last) i ans gd g j (by omega)
      rw [ho] at ho'
      simp only [oneG] at ho'
      rw [check_groups_cons_fatal ipg bpg nblocks count ans gd gd1 rest first last
        i g g1 f ho]
      simpa only [groupsG] using ho'
    | ok gd1 g1 =>
      have ho' := check_one_group_arrays_ne ipg first
        (if i = count - 1 then nblocks else last) i ans gd g j (by omega)
      rw [ho] at ho'
      simp only [oneG] at ho'
      have ih' := ih (first + bpg) ((if i = count - 1 then nblocks else last) + bpg)
        (i + 1) g1 j (by omega)
      rw [check_groups_cons_ok ipg bpg nblocks count ans gd gd1 rest first last
        i g g1 ho]
      cases hr : check_groups ipg bpg nblocks count ans rest (first + bpg)
          ((if i = count - 1 then nblocks else last) + bpg) (i + 1) g1 with
      | fatal f rest1 g2 =>
        rw [hr] at ih'
        simp only [groupsG] at ih'
        simp only [groupsG]
        exact ⟨by rw [ih'.1, ho'.1], by rw [ih'.2.1, ho'.2.1],
          by rw [ih'.2.2, ho'.2.2]⟩
      | ok rest1 g2 =>
        rw [hr] at ih'
        simp only [groupsG] at ih'
        simp only [groupsG]
        exact ⟨by rw [ih'.1, ho'.1], by rw [ih'.2.1, ho'.2.1],
          by rw [ih'.2.2, ho'.2.2]⟩

theorem gd_in_range_not_out (ipg first last : Nat) (gd : GroupDesc)
    (h : gd_in_range ipg first last gd) :
    ¬ bb_out first last gd ∧ ¬ ib_out first last gd ∧ ¬ it_out ipg first last gd := by
  obtain ⟨⟨h1, h2⟩, ⟨h3, h4⟩, ⟨h5, h6⟩⟩ := h
  refine ⟨?_, ?_, ?_⟩
  · rintro (hc | hc) <;> omega
  · rintro (hc | hc) <;> omega
  · rintro (hc | hc) <;> omega

theorem check_groups_in_range (ipg bpg nblocks count : Nat) (ans : Nat → Bool) :
    ∀ (gds : List GroupDesc) (first last i : Nat) (g : Globals) (j : Nat)
      (gd : GroupDesc),
      i + gds.length = count →
      last = first + bpg →
      gds.get? j = some gd →
      gd_in_range ipg (first + j * bpg)
        (if i + j = count - 1 then nblocks else first + j * bpg + bpg) gd →
      ((groupsGds (check_groups ipg bpg nblocks count ans gds first last i g)).get? j =
        some gd ∧
       (groupsG (check_groups ipg bpg nblocks count ans gds first last i g)).invalid_block_bitmap.getD (i + j) 0 =
        g.invalid_block_bitmap.getD (i + j) 0 ∧
       (groupsG (check_groups ipg bpg nblocks count ans gds first last i g)).invalid_inode_bitmap.getD (i + j) 0 =
        g.invalid_inode_bitmap.getD (i + j) 0 ∧
       (groupsG (check_groups ipg bpg nblocks count ans gds first last i g)).invalid_inode_table.getD (i + j) 0 =
        g.invalid_inode_table.getD (i + j) 0) := by
  intro gds
  induction gds with
  | nil =>
    intro first last i g j gd hcount hlast hget hrange
    simp at hget
  | cons gd0 rest ih =>
    intro first last i g j gd hcount hlast hget hrange
    cases j with
    | zero =>
      have hgd : gd0 = gd := by simpa using hget
      subst hgd
      have hadj : (if i + 0 = count - 1 then nblocks else first + 0 * bpg + bpg) =
          (if i = count - 1 then nblocks else last) := by
        rw [hlast]
        simp
      rw [hadj] at hrange
      obtain ⟨hnb, hni, hnt⟩ := gd_in_range_not_out ipg
        (first + 0 * bpg) (if i = count - 1 then nblocks else last) gd0
        (by simpa using hrange)
      have hno : ¬ bb_out first (if i = count - 1 then nblocks else last) gd0 := by
        simpa using hnb
      have hno2 : ¬ ib_out first (if i = count - 1 then nblocks else last) gd0 := by
        simpa using hni
      have hno3 : ¬ it_out ipg first (if i = count - 1 then nblocks else last) gd0 := by
        simpa using hnt
      have ho := check_one_group_in_range ipg first
        (if i = count - 1 then nblocks else last) i ans gd0 g hno hno2 hno3
      rw [check_groups_cons_ok ipg bpg nblocks count ans gd0 gd0 rest first last
        i g g ho]
      have hlt := check_groups_arrays_lt ipg bpg nblocks count ans rest
        (first + bpg) ((if i = count - 1 then nblocks else last) + bpg) (i + 1) g
        i (by omega)
      cases hr : check_groups ipg bpg nblocks count ans rest (first + bpg)
          ((if i = count - 1 then nblocks else last) + bpg) (i + 1) g with
      | fatal f rest1 g2 =>
        rw [hr] at hlt
        simp only [groupsG] at hlt
        simp only [groupsGds, groupsG]
        simpa using hlt
      | ok rest1 g2 =>
        rw [hr] at hlt
        simp only [groupsG] at hlt
        simp only [groupsGds, groupsG]
        simpa using hlt
    | succ k =>
      have hget' : rest.get? k = some gd := by simpa using hget
      have hklen : k < rest.length := List.get?_eq_some.mp hget' |>.1
      have hine : i ≠ count - 1 := by
        simp at hcount
        omega
      have hrange' : gd_in_range ipg (first + bpg + k * bpg)
          (if i + 1 + k = count - 1 then nblocks
           else first + bpg + k * bpg + bpg) gd := by
        have e1 : first + (k + 1) * bpg = first + bpg + k * bpg := by ring
        have e2 : i + (k + 1) = i + 1 + k := by omega
        rw [e1, e2] at hrange
        exact hrange
      cases ho : check_one_group ipg first (if i = count - 1 then nblocks else last)
          i ans gd0 g with
      | fatal f gd1 g1 =>
        have ho' := check_one_group_arrays_ne ipg first
          (if i = count - 1 then nblocks else last) i ans gd0 g (i + (k + 1))
          (by omega)
        rw [ho] at ho'
        simp only [oneG] at ho'
        rw [check_groups_cons_fatal ipg bpg nblocks count ans gd0 gd1 rest first
          last i g g1 f ho]
        simp only [groupsGds, groupsG]
        exact ⟨by simpa using hget', ho'.1, ho'.2.1, ho'.2.2⟩
      | ok gd1 g1 =>
        have ho' := check_one_group_arrays_ne ipg first
          (if i = count - 1 then nblocks else last) i ans gd0 g (i + (k + 1))
          (by omega)
        rw [ho] at ho'
        simp only [oneG] at ho'
        have hadj2 : (if i = count - 1 then nblocks else last) + bpg =
            (first + bpg) + bpg := by
          rw [if_neg hine, hlast]
        have ih' := ih (first + bpg) ((if i = count - 1 then nblocks else last) + bpg)
          (i + 1) g1 k gd (by simp at hcount ⊢; omega) hadj2 hget' hrange'
        have hidx : i + 1 + k = i + (k + 1) := by omega
        rw [hidx] at ih'
        rw [check_groups_cons_ok ipg bpg nblocks count ans gd0 gd1 rest first last
          i g g1 ho]
        cases hr : check_groups ipg bpg nblocks count ans rest (first + bpg)
            ((if i = count - 1 then nblocks else last) + bpg) (i + 1) g1 with
        | fatal f rest1 g2 =>
          rw [hr] at ih'
          simp only [groupsGds, groupsG] at ih'
          simp only [groupsGds, groupsG]
          exact ⟨by simpa using ih'.1, by rw [ih'.2.1, ho'.1],
            by rw [ih'.2.2.1, ho'.2.1], by rw [ih'.2.2.2, ho'.2.2]⟩
        | ok rest1 g2 =>
          rw [hr] at ih'
          simp only [groupsGds, groupsG] at ih'
          simp only [groupsGds, groupsG]
          exact ⟨by simpa using ih'.1, by rw [ih'.2.1, ho'.1],
            by rw [ih'.2.2.1, ho'.2.1], by rw [ih'.2.2.2, ho'.2.2]⟩

theorem csb_groups_in_range (ans : Nat → Bool) (fs : Filsys) (g : Globals)
    (i : Nat) (gd : GroupDesc) (hget : fs.group_desc.get? i = some gd)
    (hin : group_in_range fs i gd) :
    (csbFs (check_super_block_groups ans fs g)).group_desc.get? i = some gd ∧
    (csbG (check_super_block_groups ans fs g)).invalid_block_bitmap.getD i 0 =
      g.invalid_block_bitmap.getD i 0 ∧
    (csbG (check_super_block_groups ans fs g)).invalid_inode_bitmap.getD i 0 =
      g.invalid_inode_bitmap.getD i 0 ∧
    (csbG (check_super_block_groups ans fs g)).invalid_inode_table.getD i 0 =
      g.invalid_inode_table.getD i 0 := by
  have hrange : gd_in_range fs.inode_blocks_per_group
      (fs.super.s_first_data_block + i * fs.super.s_blocks_per_group)
      (if 0 + i = fs.group_desc.length - 1 then fs.super.s_blocks_count
       else fs.super.s_first_data_block + i * fs.super.s_blocks_per_group +
         fs.super.s_blocks_per_group) gd := by
    unfold group_in_range group_range_first group_range_last at hin
    simpa using hin
  have key := check_groups_in_range fs.inode_blocks_per_group
    fs.super.s_blocks_per_group fs.super.s_blocks_count fs.group_desc.length ans
    fs.group_desc fs.super.s_first_data_block
    (fs.super.s_first_data_block + fs.super.s_blocks_per_group) 0 g i gd
    (by simp) rfl hget hrange
  cases hr : check_groups fs.inode_blocks_per_group fs.super.s_blocks_per_group
      fs.super.s_blocks_count fs.group_desc.length ans fs.group_desc
      fs.super.s_first_data_block
      (fs.super.s_first_data_block + fs.super.s_blocks_per_group) 0 g with
  | fatal f gds g1 =>
    rw [hr] at key
    simp only [groupsGds, groupsG] at key
    simp only [check_super_block_groups, hr, csbFs, csbG]
    simpa using key
  | ok gds g1 =>
    rw [hr] at key
    simp only [groupsGds, groupsG] at key
    simp only [check_super_block_groups, hr, csbFs, csbG]
    simpa using key

theorem csb_derived_in_range (ans : Nat → Bool) (fs : Filsys) (g : Globals)
    (i : Nat) (gd : GroupDesc) (hget : fs.group_desc.get? i = some gd)
    (hin : group_in_range fs i gd) :
    (csbFs (check_super_block_derived ans fs g)).group_desc.get? i = some gd ∧
    (csbG (check_super_block_derived ans fs g)).invalid_block_bitmap.getD i 0 =
      g.invalid_block_bitmap.getD i 0 ∧
    (csbG (check_super_block_derived ans fs g)).invalid_inode_bitmap.getD i 0 =
      g.invalid_inode_bitmap.getD i 0 ∧
    (csbG (check_super_block_derived ans fs g)).invalid_inode_table.getD i 0 =
      g.invalid_inode_table.getD i 0 := by
  unfold check_super_block_derived
  dsimp only
  split
  · exact ⟨hget, rfl, rfl, rfl⟩
  · split
    · exact ⟨hget, rfl, rfl, rfl⟩
    · split <;> split
      · exact ⟨hget, rfl, rfl, rfl⟩
      · exact csb_groups_in_range ans fs g i gd hget hin
      · exact ⟨hget, rfl, rfl, rfl⟩
      · exact csb_groups_in_range ans fs g i gd hget hin

/-! Claim C5. -/

/-- C5: for every group descriptor whose pointers (and, for the inode
table, the full inode-table extent) lie inside its group's true block range
-- the ranges being `s_first_data_block + i * s_blocks_per_group` of span
`s_blocks_per_group`, except that the final group's upper bound is the
total block count (`group_range_first` / `group_range_last`) -- validation
leaves that group's descriptor unchanged and that group's three relocation
counters untouched, whatever happens elsewhere. -/
theorem C5_in_range_no_relocation (device_size : Nat) (ans : Nat → Bool)
    (fs : Filsys) (g : Globals) (i : Nat) (gd : GroupDesc)
    (hget : fs.group_desc.get? i = some gd)
    (hin : group_in_range fs i gd) :
    (csbFs (check_super_block device_size ans fs g)).group_desc.get? i = some gd ∧
    (csbG (check_super_block device_size ans fs g)).invalid_block_bitmap.getD i 0 =
      g.invalid_block_bitmap.getD i 0 ∧
    (csbG (check_super_block device_size ans fs g)).invalid_inode_bitmap.getD i 0 =
      g.invalid_inode_bitmap.getD i 0 ∧
    (csbG (check_super_block device_size ans fs g)).invalid_inode_table.getD i 0 =
      g.invalid_inode_table.getD i 0 := by
  cases hs : scalar_result fs.super with
  | some dv =>
    simp only [check_super_block, hs]
    exact ⟨hget, rfl, rfl, rfl⟩
  | none =>
    simp only [check_super_block, hs]
    obtain ⟨b1, b2, b3, b4, b5, b6⟩ := askApply_fields ans g
    have hder := csb_derived_in_range ans fs ((askApply ans g).2) i gd hget hin
    have hder0 := csb_derived_in_range ans fs g i gd hget hin
    split
    · split
      · refine ⟨hget, ?_, ?_, ?_⟩ <;> simp only [csbG] <;>
          [rw [b1]; rw [b2]; rw [b3]]
      · exact ⟨hder.1, by rw [hder.2.1, b1], by rw [hder.2.2.1, b2],
          by rw [hder.2.2.2, b3]⟩
    · exact hder0

/-- Witness for C5: the final group of `fsNarrow` is narrower than the
nominal span (its range is [9, 13), not [9, 17)); its in-range pointers
leave descriptor 1 and all of group 1's counters untouched. -/
theorem C5_in_range_no_relocation_witness :
    (csbFs (check_super_block 13 ansTrue fsNarrow gTwo)).group_desc.get? 1 =
      some { bg_block_bitmap := 9, bg_inode_bitmap := 10, bg_inode_table := 11 } ∧
    (csbG (check_super_block 13 ansTrue fsNarrow gTwo)).invalid_block_bitmap.getD 1 0 =
      gTwo.invalid_block_bitmap.getD 1 0 ∧
    (csbG (check_super_block 13 ansTrue fsNarrow gTwo)).invalid_inode_bitmap.getD 1 0 =
      gTwo.invalid_inode_bitmap.getD 1 0 ∧
    (csbG (check_super_block 13 ansTrue fsNarrow gTwo)).invalid_inode_table.getD 1 0 =
      gTwo.invalid_inode_table.getD 1 0 :=
  C5_in_range_no_relocation 13 ansTrue fsNarrow gTwo 1
    { bg_block_bitmap := 9, bg_inode_bitmap := 10, bg_inode_table := 11 }
    (by decide) (by decide)

theorem csb_groups_super (ans : Nat → Bool) (fs : Filsys) (g : Globals) :
    (csbFs (check_super_block_groups ans fs g)).super = fs.super := by
  unfold check_super_block_groups
  dsimp only
  split <;> rfl

theorem csb_derived_super (ans : Nat → Bool) (fs : Filsys) (g : Globals) :
    (csbFs (check_super_block_derived ans fs g)).super = fs.super := by
  unfold check_super_block_derived
  dsimp only
  split
  · rfl
  · split
    · rfl
    · split <;> split
      · rfl
      · exact csb_groups_super ans fs g
      · rfl
      · exact csb_groups_super ans fs g

theorem check_super_block_super (device_size : Nat) (ans : Nat → Bool)
    (fs : Filsys) (g : Globals) :
    (csbFs (check_super_block device_size ans fs g)).super = fs.super := by
  cases hs : scalar_result fs.super with
  | some dv =>
    simp only [check_super_block, hs]
    rfl
  | none =>
    simp only [check_super_block, hs]
    split
    · split
      · rfl
      · exact csb_derived_super ans fs _
    · exact csb_derived_super ans fs g

theorem check_super_block_ok_super (device_size : Nat) (ans : Nat → Bool)
    (fs fs1 : Filsys) (g g1 : Globals)
    (h : check_super_block device_size ans fs g = .ok fs1 g1) :
    fs1.super = fs.super := by
  have hsup := check_super_block_super device_size ans fs g
  rw [h] at hsup
  simpa only [csbFs] using hsup

theorem hint_inv_check_groups (ipg bpg nblocks count : Nat) (ans : Nat → Bool) :
    ∀ (gds : List GroupDesc) (first last i : Nat) (g : Globals),
      hint_inv g →
      hint_inv (groupsG (check_groups ipg bpg nblocks count ans gds first last i g)) := by
  intro gds
  induction gds with
  | nil =>
    intro first last i g h
    rw [check_groups_nil]
    exact h
  | cons gd rest ih =>
    intro first last i g h
    cases ho : check_one_group ipg first (if i = count - 1 then nblocks else last)
        i ans gd g with
    | fatal f gd1 g1 =>
      have ho' := hint_inv_check_one_group ipg first
        (if i = count - 1 then nblocks else last) i ans gd g h
      rw [ho] at ho'
      simp only [oneG] at ho'
      rw [check_groups_cons_fatal ipg bpg nblocks count ans gd gd1 rest first last
        i g g1 f ho]
      simpa only [groupsG] using ho'
    | ok gd1 g1 =>
      have ho' := hint_inv_check_one_group ipg first
        (if i = count - 1 then nblocks else last) i ans gd g h
      rw [ho] at ho'
      simp only [oneG] at ho'
      have ih' := ih (first + bpg) ((if i = count - 1 then nblocks else last) + bpg)
        (i + 1) g1 ho'
      rw [check_groups_cons_ok ipg bpg nblocks count ans gd gd1 rest first last
        i g g1 ho]
      cases hr : check_groups ipg bpg nblocks count ans rest (first + bpg)
          ((if i = count - 1 then nblocks else last) + bpg) (i + 1) g1 with
      | fatal f rest1 g2 =>
        rw [hr] at ih'
        simpa only [groupsG] using ih'
      | ok rest1 g2 =>
        rw [hr] at ih'
        simpa only [groupsG] using ih'

theorem hint_inv_csb_groups (ans : Nat → Bool) (fs : Filsys) (g : Globals)
    (h : hint_inv g) : hint_inv (csbG (check_super_block_groups ans fs g)) := by
  have key := hint_inv_check_groups fs.inode_blocks_per_group
    fs.super.s_blocks_per_group fs.super.s_blocks_count fs.group_desc.length ans
    fs.group_desc fs.super.s_first_data_block
    (fs.super.s_first_data_block + fs.super.s_blocks_per_group) 0 g h
  cases hr : check_groups fs.inode_blocks_per_group fs.super.s_blocks_per_group
      fs.super.s_blocks_count fs.group_desc.length ans fs.group_desc
      fs.super.s_first_data_block
      (fs.super.s_first_data_block + fs.super.s_blocks_per_group) 0 g with
  | fatal f gds g1 =>
    rw [hr] at key
    simp only [check_super_block_groups, hr, csbG]
    simpa only [groupsG] using key
  | ok gds g1 =>
    rw [hr] at key
    simp only [check_super_block_groups, hr, csbG]
    simpa only [groupsG] using key

theorem hint_inv_csb_derived (ans : Nat → Bool) (fs : Filsys) (g : Globals)
    (h : hint_inv g) : hint_inv (csbG (check_super_block_derived ans fs g)) := by
  unfold check_super_block_derived
  dsimp only
  split
  · exact h
  · split
    · exact h
    · split <;> split
      · exact h
      · exact hint_inv_csb_groups ans fs g h
      · exact h
      · exact hint_inv_csb_groups ans fs g h

theorem hint_inv_check_super_block (device_size : Nat) (ans : Nat → Bool)
    (fs : Filsys) (g : Globals) (h : hint_inv g) :
    hint_inv (csbG (check_super_block device_size ans fs g)) := by
  obtain ⟨b1, b2, b3, b4, b5, b6⟩ := askApply_fields ans g
  have hask : hint_inv (askApply ans g).2 := hint_inv_of_eq _ _ b5 b6 h
  cases hs : scalar_result fs.super with
  | some dv =>
    simp only [check_super_block, hs]
    exact h
  | none =>
    simp only [check_super_block, hs]
    split
    · split
      · exact hask
      · exact hint_inv_csb_derived ans fs _ hask
    · exact hint_inv_csb_derived ans fs g h

/-! Claim C6. -/

/-- C6: for every filesystem whose on-disk state is marked valid, with no
error flag, mount count strictly below its configured maximum (a signed
16-bit field, hence the bound), check interval absent or not elapsed, and
no force flag, bad-blocks request or surface-scan request, a run that
survives the terminal guard and whose validation returns (the validator
runs first, see C7) terminates the whole process with the success status,
carrying the one-line used-inodes/total and used-blocks/total summary,
without running any pass: the trace is exactly open, alloc, validate,
skip-check. -/
theorem C6_clean_skip_short_circuit (inp : MainInput) (fuel : Nat)
    (hforce : inp.force = false) (hbbf : inp.bbf = false) (hc : inp.cflag = false)
    (hterm : (!inp.preen && !inp.nflag && !inp.yflag && (!inp.tty0 || !inp.tty1)) = false)
    (herr : (inp.disk 0).super.s_state &&& EXT2_ERROR_FS = 0)
    (hmax32 : (inp.disk 0).super.s_max_mnt_count < 4294967296)
    (hmnt : ((inp.disk 0).super.s_mnt_count : Int) < (inp.disk 0).super.s_max_mnt_count)
    (hintv : (inp.disk 0).super.s_checkinterval = 0 ∨
      inp.now < (inp.disk 0).super.s_lastcheck + (inp.disk 0).super.s_checkinterval)
    (hvalid : (inp.disk 0).super.s_state &&& EXT2_VALID_FS ≠ 0)
    (hcsb : ∃ fs1 g2, check_super_block inp.device_size inp.ans (inp.disk 0)
        (allocate_reloc_arrays (inp.disk 0).group_desc.length init_globals) =
        .ok fs1 g2) :
    (e2fsck_main inp (fuel + 1)).outcome =
      .skipExit FSCK_OK
        ((inp.disk 0).super.s_inodes_count - (inp.disk 0).super.s_free_inodes_count)
        (inp.disk 0).super.s_inodes_count
        ((inp.disk 0).super.s_blocks_count - (inp.disk 0).super.s_free_blocks_count)
        (inp.disk 0).super.s_blocks_count ∧
    (e2fsck_main inp (fuel + 1)).events =
      [Ev.evOpen, Ev.evAlloc, Ev.evValidate, Ev.evSkipCheck] := by
  obtain ⟨fs1, g2, hok⟩ := hcsb
  have hsuper := check_super_block_ok_super _ _ _ _ _ _ hok
  have c1 : ¬ ((inp.force || inp.bbf || inp.cflag) = true) := by
    rw [hforce, hbbf, hc]
    simp
  have c2 : ¬ ((inp.disk 0).super.s_state &&& EXT2_ERROR_FS ≠ 0) := by
    simp [herr]
  have c3 : ¬ (castU32 (inp.disk 0).super.s_max_mnt_count ≤
      (inp.disk 0).super.s_mnt_count) := by
    unfold castU32
    omega
  have c4 : ¬ ((inp.disk 0).super.s_checkinterval ≠ 0 ∧
      (inp.disk 0).super.s_lastcheck + (inp.disk 0).super.s_checkinterval ≤
        inp.now) := by
    rcases hintv with hI | hI <;> omega
  have hskip : check_if_skip inp.force inp.bbf inp.cflag inp.now fs1.super =
      .cleanExit FSCK_OK
        ((inp.disk 0).super.s_inodes_count - (inp.disk 0).super.s_free_inodes_count)
        (inp.disk 0).super.s_inodes_count
        ((inp.disk 0).super.s_blocks_count - (inp.disk 0).super.s_free_blocks_count)
        (inp.disk 0).super.s_blocks_count := by
    rw [hsuper]
    unfold check_if_skip
    rw [if_neg c1, if_neg c2, if_neg c3, if_neg c4, if_pos hvalid]
  have hguard : ¬ ((!inp.preen && !inp.nflag && !inp.yflag &&
      (!inp.tty0 || !inp.tty1)) = true) := by
    simp [hterm]
  unfold e2fsck_main
  rw [if_neg hguard]
  simp only [main_loop, hok, hskip]
  constructor <;> trivial

/-- Witness for C6: the spec's example -- 1000 inodes (500 free), 4096
blocks (2048 free), state valid, mount count 1 of 20 -- exits with success
and the summary 500/1000 files, 2048/4096 blocks, running no pass. -/
theorem C6_clean_skip_short_circuit_witness :
    (e2fsck_main inpClean 1).outcome = .skipExit FSCK_OK 500 1000 2048 4096 ∧
    (e2fsck_main inpClean 1).events =
      [Ev.evOpen, Ev.evAlloc, Ev.evValidate, Ev.evSkipCheck] :=
  C6_clean_skip_short_circuit inpClean 0 rfl rfl rfl rfl (by decide) (by decide)
    (by decide) (Or.inl rfl) (by decide) ⟨_, _, rfl⟩

theorem hint_inv_main_loop (inp : MainInput) (rw : Bool) :
    ∀ (fuel k : Nat) (g : Globals), hint_inv g →
      hint_inv (main_loop inp rw fuel k g).finalGlobals := by
  intro fuel
  induction fuel with
  | zero =>
    intro k g h
    simpa only [main_loop] using h
  | succ fuel ih =>
    intro k g h
    have halloc : hint_inv (allocate_reloc_arrays (inp.disk k).group_desc.length g) :=
      hint_inv_of_eq _ _ rfl rfl h
    have hcsb := hint_inv_check_super_block inp.device_size inp.ans (inp.disk k)
      (allocate_reloc_arrays (inp.disk k).group_desc.length g) halloc
    simp only [main_loop]
    cases hc : check_super_block inp.device_size inp.ans (inp.disk k)
        (allocate_reloc_arrays (inp.disk k).group_desc.length g) with
    | fatal f fs1 g2 =>
      rw [hc] at hcsb
      simp only [csbG] at hcsb
      simp only [hc]
      exact hcsb
    | ok fs1 g2 =>
      rw [hc] at hcsb
      simp only [csbG] at hcsb
      simp only [hc]
      cases hs : check_if_skip inp.force inp.bbf inp.cflag inp.now fs1.super with
      | cleanExit code iu it bu bt =>
        simp only [hs]
        exact hcsb
      | forcedFlag =>
        simp only [hs]
        split
        · exact ih (k + 1) _ (hint_inv_of_eq _ _ rfl rfl hcsb)
        · exact hint_inv_of_eq _ _ rfl rfl hcsb
      | forcedReason reason =>
        simp only [hs]
        split
        · exact ih (k + 1) _ (hint_inv_of_eq _ _ rfl rfl hcsb)
        · exact hint_inv_of_eq _ _ rfl rfl hcsb
      | notValid =>
        simp only [hs]
        split
        · exact ih (k + 1) _ (hint_inv_of_eq _ _ rfl rfl hcsb)
        · exact hint_inv_of_eq _ _ rfl rfl hcsb

/-! Claim C9. -/

/-- C9: the general relocation hint is emitted at most once per run,
regardless of how many out-of-range pointer violations occur, across how
many groups, and across restarts within the same process: in every modelled
run the final count of hint emissions is at most one. -/
theorem C9_relocation_hint_at_most_once (inp : MainInput) (fuel : Nat) :
    (e2fsck_main inp fuel).finalGlobals.hints_emitted ≤ 1 := by
  have hinit : hint_inv init_globals := ⟨by simp [init_globals], fun _ => rfl⟩
  unfold e2fsck_main
  split
  · simp [init_globals]
  · exact (hint_inv_main_loop inp (prs_rwflag inp.nflag inp.bbf inp.cflag) fuel 0
      init_globals hinit).1

theorem finalize_super_fields (valid : Bool) (now : Nat) (s : Ext2SuperBlock) :
    (finalize_super valid now s).s_mnt_count = 0 ∧
    (finalize_super valid now s).s_lastcheck = now ∧
    ((finalize_super valid now s).s_state = EXT2_VALID_FS ∨
     (finalize_super valid now s).s_state % 2 = 0) := by
  unfold finalize_super
  cases valid
  · refine ⟨rfl, rfl, Or.inr ?_⟩
    simp only [Bool.false_eq_true, if_false]
    omega
  · exact ⟨rfl, rfl, Or.inl rfl⟩

theorem main_loop_exited_finalSuper (inp : MainInput) :
    ∀ (fuel k : Nat) (g : Globals) (code : Nat),
      (main_loop inp true fuel k g).outcome = .exited code →
      ∃ s', (main_loop inp true fuel k g).finalSuper = some s' ∧
        s'.s_mnt_count = 0 ∧ s'.s_lastcheck = inp.now ∧
        (s'.s_state = EXT2_VALID_FS ∨ s'.s_state % 2 = 0) := by
  intro fuel
  induction fuel with
  | zero =>
    intro k g code h
    simp [main_loop] at h
  | succ fuel ih =>
    intro k g code h
    simp only [main_loop] at h ⊢
    cases hc : check_super_block inp.device_size inp.ans (inp.disk k)
        (allocate_reloc_arrays (inp.disk k).group_desc.length g) with
    | fatal f fs1 g2 =>
      simp [hc] at h
    | ok fs1 g2 =>
      simp only [hc] at h ⊢
      cases hs : check_if_skip inp.force inp.bbf inp.cflag inp.now fs1.super with
      | cleanExit c2 iu it bu bt =>
        simp [hs] at h
      | forcedFlag =>
        simp only [hs] at h ⊢
        split at h
        · rename_i hres
          simp only [hres, if_true] at h ⊢
          exact ih (k + 1) _ code h
        · rename_i hres
          simp only [Bool.not_eq_true] at hres
          simp only [hres, Bool.false_eq_true, if_false] at h ⊢
          exact ⟨_, rfl, finalize_super_fields _ inp.now fs1.super⟩
      | forcedReason reason =>
        simp only [hs] at h ⊢
        split at h
        · rename_i hres
          simp only [hres, if_true] at h ⊢
          exact ih (k + 1) _ code h
        · rename_i hres
          simp only [Bool.not_eq_true] at hres
          simp only [hres, Bool.false_eq_true, if_false] at h ⊢
          exact ⟨_, rfl, finalize_super_fields _ inp.now fs1.super⟩
      | notValid =>
        simp only [hs] at h ⊢
        split at h
        · rename_i hres
          simp only [hres, if_true] at h ⊢
          exact ih (k + 1) _ code h
        · rename_i hres
          simp only [Bool.not_eq_true] at hres
          simp only [hres, Bool.false_eq_true, if_false] at h ⊢
          exact ⟨_, rfl, finalize_super_fields _ inp.now fs1.super⟩

/-! Claim C10. -/

/-- C10: when the read-only flag -n is combined with a bad-blocks file
request or a surface-scan request, `PRS` never clears the read-write flag,
so the run stays in read-write mode and every run that reaches the normal
exit performs the finalization write-back: the written superblock has its
mount count reset to 0, its last-check timestamp set to the current time,
and its state word rewritten (set to EXT2_VALID_FS, or with the valid bit
cleared). -/
theorem C10_readonly_with_badblocks_stays_rw (inp : MainInput) (fuel : Nat)
    (hn : inp.nflag = true) (hbc : inp.bbf = true ∨ inp.cflag = true) :
    prs_rwflag inp.nflag inp.bbf inp.cflag = true ∧
    ∀ code, (e2fsck_main inp fuel).outcome = .exited code →
      ∃ s', (e2fsck_main inp fuel).finalSuper = some s' ∧
        s'.s_mnt_count = 0 ∧ s'.s_lastcheck = inp.now ∧
        (s'.s_state = EXT2_VALID_FS ∨ s'.s_state % 2 = 0) := by
  have hprs : prs_rwflag inp.nflag inp.bbf inp.cflag = true := by
    unfold prs_rwflag
    rcases hbc with hb | hb <;> rw [hn, hb] <;> simp
  refine ⟨hprs, ?_⟩
  intro code h
  by_cases hg : (!inp.preen && !inp.nflag && !inp.yflag &&
      (!inp.tty0 || !inp.tty1)) = true
  · unfold e2fsck_main at h
    rw [if_pos hg] at h
    simp at h
  · unfold e2fsck_main at h ⊢
    rw [if_neg hg] at h ⊢
    rw [hprs] at h ⊢
    exact main_loop_exited_finalSuper inp fuel 0 init_globals code h

/-- Witness for C10: the -n plus -c run on the clean filesystem keeps the
read-write flag and performs the finalization write-back. -/
theorem C10_readonly_with_badblocks_stays_rw_witness :
    prs_rwflag inpReadOnlyScan.nflag inpReadOnlyScan.bbf inpReadOnlyScan.cflag = true ∧
    ∃ s', (e2fsck_main inpReadOnlyScan 1).finalSuper = some s' ∧
      s'.s_mnt_count = 0 ∧ s'.s_lastcheck = inpReadOnlyScan.now ∧
      (s'.s_state = EXT2_VALID_FS ∨ s'.s_state % 2 = 0) :=
  ⟨(C10_readonly_with_badblocks_stays_rw inpReadOnlyScan 1 rfl (Or.inr rfl)).1,
   (C10_readonly_with_badblocks_stays_rw inpReadOnlyScan 1 rfl (Or.inr rfl)).2 0
     (by decide)⟩

/-! Claim C1. -/

/-- C1 (evaluation at the failing input): on `fsReloc` one relocation is
accepted in the first validation, pass 1 requests a restart, the handle is
closed and reopened; in the snapshot taken immediately after the reopen
(before pass 1 runs again) the three per-group RelocationFlags arrays are
freshly allocated all-zero, but the derived aggregate counter
`invalid_bitmaps` still reads 1 -- it is never reset across the restart,
contradicting the claim (and spec sections 5 and 8), which require every
relocation counter to read zero at that point. -/
theorem C1_stale_invalid_bitmaps_after_restart :
    Ev.evReopenRestart ∈ (e2fsck_main inpReloc 2).events ∧
    (e2fsck_main inpReloc 2).snapshots.map Snapshot.invalid_block_bitmap =
      [[0, 0], [0, 0]] ∧
    (e2fsck_main inpReloc 2).snapshots.map Snapshot.invalid_inode_bitmap =
      [[0, 0], [0, 0]] ∧
    (e2fsck_main inpReloc 2).snapshots.map Snapshot.invalid_inode_table =
      [[0, 0], [0, 0]] ∧
    (e2fsck_main inpReloc 2).snapshots.map Snapshot.invalid_bitmaps = [0, 1] :=
  ⟨by decide, by decide, by decide, by decide, by decide⟩

/-! Claim C7. -/

/-- C7 counterexample: on a clean volume the validator executes (trace
position 2) strictly before the skip heuristic (position 3), and the
heuristic then skips the volume -- so the heuristic does not run first, and
the validator does execute on a volume the heuristic would have skipped. -/
theorem C7_validator_runs_before_skip_counterexample :
    (e2fsck_main inpClean 1).events =
      [Ev.evOpen, Ev.evAlloc, Ev.evValidate, Ev.evSkipCheck] ∧
    (e2fsck_main inpClean 1).outcome = .skipExit 0 500 1000 2048 4096 :=
  ⟨by decide, by decide⟩

/-- C7 (amended): in every run, whenever the skip heuristic executes at
all, the superblock/group-descriptor validator has already executed: the
trace then begins open, alloc, validate, skip-check.  The validator runs
immediately before the heuristic -- not after it as the claimed data flow
states -- and therefore also runs on volumes the heuristic then skips. -/
theorem C7_validator_precedes_skip (inp : MainInput) (fuel : Nat)
    (h : Ev.evSkipCheck ∈ (e2fsck_main inp fuel).events) :
    (e2fsck_main inp fuel).events.take 4 =
      [Ev.evOpen, Ev.evAlloc, Ev.evValidate, Ev.evSkipCheck] := by
  by_cases hg : (!inp.preen && !inp.nflag && !inp.yflag &&
      (!inp.tty0 || !inp.tty1)) = true
  · unfold e2fsck_main at h
    rw [if_pos hg] at h
    simp at h
  · unfold e2fsck_main at h ⊢
    rw [if_neg hg] at h ⊢
    cases fuel with
    | zero =>
      simp [main_loop] at h
    | succ fuel =>
      simp only [main_loop] at h ⊢
      cases hc : check_super_block inp.device_size inp.ans (inp.disk 0)
          (allocate_reloc_arrays (inp.disk 0).group_desc.length init_globals) with
      | fatal f fs1 g2 =>
        simp [hc] at h
      | ok fs1 g2 =>
        simp only [hc]
        cases hs : check_if_skip inp.force inp.bbf inp.cflag inp.now fs1.super with
        | cleanExit code iu it bu bt =>
          simp only [hs]
          rfl
        | forcedFlag =>
          simp only [hs]
          split <;> rfl
        | forcedReason reason =>
          simp only [hs]
          split <;> rfl
        | notValid =>
          simp only [hs]
          split <;> rfl

/-- Witness for the amended C7: the clean run contains a skip-check event,
and its trace indeed begins open, alloc, validate, skip-check. -/
theorem C7_validator_precedes_skip_witness :
    (e2fsck_main inpClean 1).events.take 4 =
      [Ev.evOpen, Ev.evAlloc, Ev.evValidate, Ev.evSkipCheck] :=
  C7_validator_precedes_skip inpClean 1 (by decide)

/-! Claim C8. -/

/-- C8 counterexample: in interactive mode (no -p, -n or -y) with no
terminal on standard input, the run dies immediately with "need terminal
for interactive repairs" and performs nothing -- it does not behave as
unattended. -/
theorem C8_no_terminal_dies_counterexample :
    (e2fsck_main inpNoTty 3).outcome = .die "need terminal for interactive repairs" ∧
    (e2fsck_main inpNoTty 3).events = [] :=
  ⟨by decide, by decide⟩

/-- C8 (amended): in interactive mode (no unattended, read-only or
always-yes flag) without a controlling terminal on standard input and
output, the run terminates immediately through `die` with the message
"need terminal for interactive repairs", before opening the filesystem;
it does not fall back to unattended defaults. -/
theorem C8_no_terminal_die (inp : MainInput) (fuel : Nat)
    (hp : inp.preen = false) (hn : inp.nflag = false) (hy : inp.yflag = false)
    (ht : inp.tty0 = false ∨ inp.tty1 = false) :
    (e2fsck_main inp fuel).outcome = .die "need terminal for interactive repairs" ∧
    (e2fsck_main inp fuel).events = [] := by
  have hg : (!inp.preen && !inp.nflag && !inp.yflag &&
      (!inp.tty0 || !inp.tty1)) = true := by
    rw [hp, hn, hy]
    rcases ht with h | h <;> rw [h] <;> simp
  unfold e2fsck_main
  rw [if_pos hg]
  exact ⟨rfl, rfl⟩

/-- Witness for the amended C8: the concrete no-terminal interactive run
dies with the terminal message. -/
theorem C8_no_terminal_die_witness :
    (e2fsck_main inpNoTty 1).outcome = .die "need terminal for interactive repairs" ∧
    (e2fsck_main inpNoTty 1).events = [] :=
  C8_no_terminal_die inpNoTty 1 rfl rfl rfl (Or.inl rfl)

/-- Witness for C3: group 0 of `fsReloc` has its block bitmap at block 20,
outside [1, 9); accepting the relocation zeros the pointer, bumps exactly
group 0's block-bitmap counter, and raises the modified flag. -/
theorem C3_out_of_range_relocation_witness :
    ∃ g1, check_one_group 1 1 9 0 ansTrue
        { bg_block_bitmap := 20, bg_inode_bitmap := 2, bg_inode_table := 3 } gTwo =
        .ok { bg_block_bitmap := 0, bg_inode_bitmap := 2, bg_inode_table := 3 } g1 ∧
      g1.invalid_block_bitmap.getD 0 0 = gTwo.invalid_block_bitmap.getD 0 0 + 1 ∧
      (∀ j, j ≠ 0 →
        g1.invalid_block_bitmap.getD j 0 = gTwo.invalid_block_bitmap.getD j 0) ∧
      g1.invalid_inode_bitmap = gTwo.invalid_inode_bitmap ∧
      g1.invalid_inode_table = gTwo.invalid_inode_table ∧
      g1.modified = true ∧
      g1.invalid_bitmaps = gTwo.invalid_bitmaps + 1 :=
  ((C3_out_of_range_relocation 1 1 9 0 ansTrue
      { bg_block_bitmap := 20, bg_inode_bitmap := 2, bg_inode_table := 3 } gTwo
      (by decide) (by decide) (by decide)).1
    (by decide) (by decide) (by decide)).1 rfl

end E2fsck
